import Mathlib

/-!
Verification development for the qcML/quantification XML handler
(`QcMLHandler.cpp`): a shallow embedding of the controlled-vocabulary
parameter validator (`handleCVParam_`), the user-parameter handler
(`handleUserParam_`) and the report serializer (`writeTo`), together with
proofs about reference integrity, deduplication and warning behaviour.

Modelling conventions:
  * `OpenMS::String::toInt` / `toDouble` (which throw `ConversionError` on
    malformed text) are modelled as `Option`-valued parsers `toIntOpt` /
    `toDoubleOpt`; a thrown exception corresponds to `none`, and a function
    that lets the exception escape returns `Except.error`.
  * `UniqueIdGenerator::getUniqueId` is modelled as a counter threaded
    through the serializer; each call returns the counter and increments it.
  * `std::map` is modelled as an association list with insert-if-absent
    semantics.  C++ iterates a `std::map` in key order, whereas the
    association list preserves insertion order; this affects only the
    relative order of Ratio rows / ratio columns inside their own section,
    which no property below observes, never their multiset.
  * XML output is abstracted into a trace of structured events (`XEvent`),
    one per emitted element / reference attribute, in document order.
  * An unchecked `std::vector::operator[]` access past the end of the
    vector is undefined behaviour: the peptide pass, which can perform such
    reads, is `Option`-valued and returns `none` at the first out-of-bounds
    read; inputs on which it stays in bounds are certified by
    `pepInBoundsB`.
-/

/-- Association-list lookup with the semantics of `std::map::find`. -/
def lookupA {α β : Type} [DecidableEq α] : List (α × β) → α → Option β
  | [], _ => none
  | (k, v) :: t, a => if a = k then some v else lookupA t a

/-- `true` iff the character list is nonempty and all decimal digits. -/
def allDigits (l : List Char) : Bool :=
  !l.isEmpty && l.all (·.isDigit)

/-- Numeric value of a list of decimal digits. -/
def digitsToNat (l : List Char) : Nat :=
  l.foldl (fun a c => a * 10 + (c.toNat - 48)) 0

/-- Model of `OpenMS::String::toInt`: parses an optionally signed run of
decimal digits; any other text (in particular fractional text such as
`"1.5"`) fails, modelling the thrown `Exception::ConversionError`. -/
def toIntOpt (s : String) : Option Int :=
  match s.data with
  | [] => none
  | '-' :: rest => if allDigits rest then some (-(digitsToNat rest : Int)) else none
  | '+' :: rest => if allDigits rest then some (digitsToNat rest : Int) else none
  | l => if allDigits l then some (digitsToNat l : Int) else none

/-- Digit structure of unsigned decimal text: integer part, fractional part
and number of fractional digits.  Kept in `Nat` so that it evaluates by
`decide`; the rational value is assembled afterwards. -/
def parseDec (l : List Char) : Option (Nat × Nat × Nat) :=
  let ip := l.takeWhile (fun c => c != '.')
  let rest := l.dropWhile (fun c => c != '.')
  if rest.isEmpty then
    if allDigits ip then some (digitsToNat ip, 0, 0) else none
  else
    let fp := rest.tail
    if allDigits ip && allDigits fp then
      some (digitsToNat ip, digitsToNat fp, fp.length)
    else none

/-- Model of `OpenMS::String::toDouble`: optionally signed decimal text with
an optional fractional part, as an exact rational (exponents are not needed
by any property below).  Failure models the thrown `ConversionError`. -/
def toDoubleOpt (s : String) : Option ℚ :=
  let signBody : Bool × List Char :=
    match s.data with
    | '-' :: rest => (true, rest)
    | '+' :: rest => (false, rest)
    | l => (false, l)
  (parseDec signBody.2).map fun t =>
    let q : ℚ := (t.1 : ℚ) + (t.2.1 : ℚ) / ((10 : ℚ) ^ t.2.2)
    if signBody.1 then -q else q

/-- Model of `OpenMS::String::trim` (remove whitespace from both ends),
written over the character list so that it evaluates by `decide`. -/
def trimS (s : String) : String :=
  ⟨((s.data.dropWhile (·.isWhitespace)).reverse.dropWhile (·.isWhitespace)).reverse⟩

/-- Modelled from the spec: the external date parser (`DateTime::set`, whose
implementation is outside the handler source) accepts well-formed date
strings; abstracted as a fixed `yyyy-mm-dd` shape recognizer.  No property
below depends on the exact language it accepts. -/
def dateOkB (s : String) : Bool :=
  match s.data with
  | [y1, y2, y3, y4, '-', m1, m2, '-', d1, d2] =>
      [y1, y2, y3, y4, m1, m2, d1, d2].all (·.isDigit)
  | _ => false

/-! ## Controlled-vocabulary model (`ControlledVocabulary`) -/

/-- Value types a CV term may declare (`ControlledVocabulary::CVTerm::XRefType`);
`OTHER` stands for the remaining xref types that fall into the `default`
branch of the value-type switch. -/
inductive XRefType
  | NONE
  | XSD_STRING
  | XSD_INTEGER
  | XSD_NEGATIVE_INTEGER
  | XSD_POSITIVE_INTEGER
  | XSD_NON_NEGATIVE_INTEGER
  | XSD_NON_POSITIVE_INTEGER
  | XSD_DECIMAL
  | XSD_DATE
  | OTHER
deriving DecidableEq, Repr, Inhabited

/-- One ontology term (`ControlledVocabulary::CVTerm`). -/
structure CVTermOnt where
  id : String
  name : String
  obsolete : Bool
  xref_type : XRefType
deriving DecidableEq, Repr, Inhabited

/-- The loaded ontology (`cv_`), keyed by accession. -/
def CVOnt : Type := List (String × CVTermOnt)

/-- `term.xref_type` is in the integer family of the value-type switch. -/
def isIntegerXRef : XRefType → Bool
  | .XSD_INTEGER | .XSD_NEGATIVE_INTEGER | .XSD_POSITIVE_INTEGER
  | .XSD_NON_NEGATIVE_INTEGER | .XSD_NON_POSITIVE_INTEGER => true
  | _ => false

/-- Warnings the handler can log (`warning(LOAD, ...)` call sites),
tagged by the message family. -/
inductive CVWarn
  | unknownTerm (accession parentTag : String)
  | obsoleteTerm (accession parentTag : String)
  | nameMismatch (id parsed correct : String)
  | unexpectedValue (accession parentTag value : String)
  | typeMismatchInteger (accession parentTag value : String)
  | typeMismatchDecimal (accession parentTag value : String)
  | typeMismatchDate (accession parentTag value : String)
  | typeMismatchUnknown (accession parentTag : String)
  | missingValue (accession parentTag value : String)
  | unhandledCV (name parentTag : String)
  | unhandledUser (name parentTag : String)
  | noGrandParent (name parentTag : String)
deriving DecidableEq, Repr

/-- Scratch accumulators of the parse direction touched by `handleCVParam_`
(`current_count_`, `current_col_types_`, `current_assay_.mods_`). -/
structure ParseState where
  current_count : Nat
  current_col_types : List String
  current_assay_mods : List (String × ℚ)
deriving DecidableEq, Repr

/-- Value-type check of `handleCVParam_` (the `if (value != "") { switch ...`
block and the trailing missing-value `else`).  Returns the warnings it logs
and an abort flag: `true` means the C++ code executed `return`, skipping the
routing phase. -/
def cvValueCheck (term : CVTermOnt) (accession parentTag value : String) :
    List CVWarn × Bool :=
  if value ≠ "" then
    match term.xref_type with
    | .NONE =>
        if !accession.startsWith "PATO:" then
          ([.unexpectedValue accession parentTag value], false)
        else ([], false)
    | .XSD_STRING => ([], false)
    | .XSD_INTEGER | .XSD_NEGATIVE_INTEGER | .XSD_POSITIVE_INTEGER
    | .XSD_NON_NEGATIVE_INTEGER | .XSD_NON_POSITIVE_INTEGER =>
        match toIntOpt value with
        | some _ => ([], false)
        | none => ([.typeMismatchInteger accession parentTag value], true)
    | .XSD_DECIMAL =>
        match toDoubleOpt value with
        | some _ => ([], false)
        | none => ([.typeMismatchDecimal accession parentTag value], true)
    | .XSD_DATE =>
        if dateOkB value then ([], false)
        else ([.typeMismatchDate accession parentTag value], true)
    | .OTHER => ([.typeMismatchUnknown accession parentTag], false)
  else
    if term.xref_type ≠ .NONE ∧ term.xref_type ≠ .XSD_STRING then
      ([.missingValue accession parentTag value], true)
    else ([], false)

/-- Validation phase of `handleCVParam_` (everything before the routing
`if`-chain): unknown-term handling, the two obsolete-term checks, the
trimmed-name comparison, then the value-type check. -/
def cvValidate (ont : CVOnt) (parentTag accession name value : String) :
    List CVWarn × Bool :=
  match lookupA ont accession with
  | none =>
      if parentTag ≠ "sample" then ([.unknownTerm accession parentTag], true)
      else ([], false)
  | some term =>
      let w1 := if term.obsolete then [CVWarn.obsoleteTerm accession parentTag] else []
      let w2 := if trimS name ≠ trimS term.name then
          [CVWarn.nameMismatch term.id (trimS name) (trimS term.name)] else []
      let w3 := if term.obsolete then [CVWarn.obsoleteTerm accession parentTag] else []
      let e := cvValueCheck term accession parentTag value
      (w1 ++ w2 ++ w3 ++ e.1, e.2)

/-- Routing phase of `handleCVParam_`: the `(parent, grandparent)` table at
the end of the function. -/
def routeCV (parentParentTag parentTag accession name : String) (st : ParseState) :
    List CVWarn × ParseState :=
  if parentTag = "DataType" ∧ parentParentTag = "Column" then
    let grown :=
      if st.current_col_types.length ≤ st.current_count then
        st.current_col_types ++
          List.replicate (st.current_count + 1 - st.current_col_types.length) ""
      else st.current_col_types
    ([], { st with current_col_types := grown.set st.current_count accession })
  else if parentParentTag = "Label" then
    if accession = "MOD:01522" then
      ([], { st with current_assay_mods := st.current_assay_mods ++ [("114", (114 : ℚ))] })
    else if accession = "MOD:01523" then
      ([], { st with current_assay_mods := st.current_assay_mods ++ [("115", (115 : ℚ))] })
    else if accession = "MOD:01524" then
      ([], { st with current_assay_mods := st.current_assay_mods ++ [("116", (116 : ℚ))] })
    else if accession = "MOD:01525" then
      ([], { st with current_assay_mods := st.current_assay_mods ++ [("117", (117 : ℚ))] })
    else ([], st)
  else ([.unhandledCV name parentTag], st)

/-- `QcMLHandler::handleCVParam_`: validation, then (unless the validation
phase `return`ed) routing. -/
def handleCVParam_ (ont : CVOnt) (parentParentTag parentTag accession name value : String)
    (st : ParseState) : List CVWarn × ParseState :=
  let v := cvValidate ont parentTag accession name value
  if v.2 then (v.1, st)
  else
    let r := routeCV parentParentTag parentTag accession name st
    (v.1 ++ r.1, r.2)

/-! ## User parameters (`handleUserParam_`) -/

/-- `OpenMS::DataValue`, restricted to the alternatives this handler builds. -/
inductive DataValue
  | dInt (i : Int)
  | dDouble (q : ℚ)
  | dString (s : String)
deriving DecidableEq, Repr

/-- The conversion failure (`Exception::ConversionError`) that
`String::toInt` / `String::toDouble` throw; `handleUserParam_` has no
`try`/`catch`, so it escapes to the caller. -/
inductive ConvError
  | conversionError
deriving DecidableEq, Repr

/-- The declared-type dispatch at the top of `handleUserParam_`: `xsd:double`
and `xsd:float` parse as floating point, the listed integer types (including
`xsd:decimal`) parse as integer, everything else stays text. -/
def mkDataValue (type value : String) : Except ConvError DataValue :=
  if type = "xsd:double" ∨ type = "xsd:float" then
    match toDoubleOpt value with
    | some q => .ok (.dDouble q)
    | none => .error .conversionError
  else if type = "xsd:byte" ∨ type = "xsd:decimal" ∨ type = "xsd:int" ∨
      type = "xsd:integer" ∨ type = "xsd:long" ∨ type = "xsd:negativeInteger" ∨
      type = "xsd:nonNegativeInteger" ∨ type = "xsd:nonPositiveInteger" ∨
      type = "xsd:positiveInteger" ∨ type = "xsd:short" ∨
      type = "xsd:unsignedByte" ∨ type = "xsd:unsignedInt" ∨
      type = "xsd:unsignedLong" ∨ type = "xsd:unsignedShort" then
    match toIntOpt value with
    | some i => .ok (.dInt i)
    | none => .error .conversionError
  else .ok (.dString value)

/-- Modelled from the spec: `DataProcessing::NamesOfProcessingAction`, the
fixed processing-action name table (declared outside the handler source).
Only its role as a fixed lookup list matters to the routing contract. -/
def namesOfProcessingAction : List String :=
  ["Data processing", "Charge deconvolution", "Deisotoping", "Smoothing",
   "Charge calculation", "Precursor recalculation", "Baseline reduction",
   "Peak picking", "Retention time alignment", "Calibration", "Normalization",
   "Data filtering", "Quantitation", "Feature grouping",
   "Identification mapping", "Identification", "Conversion to mzData",
   "Conversion to mzML", "Conversion to mzXML", "Conversion to DTA"]

/-- Modelled from the spec: `MSQuantifications::NamesOfQuantTypes`, the fixed
ordered list of quantification-type names (declared outside the handler
source); no match yields the sentinel `-1`. -/
def namesOfQuantTypes : List String := ["MS1LABEL", "MS2LABEL", "LABELFREE"]

/-- Index of `a` in `l`, or `l.length` when absent — the
`std::distance(begin, std::find(...))` idiom. -/
def idxOf [DecidableEq α] : List α → α → Nat
  | [], _ => 0
  | x :: t, a => if a = x then 0 else idxOf t a + 1

/-- Scratch accumulators of the parse direction touched by
`handleUserParam_`, keyed by the `current_id_` cursor where the C++ uses
cursor-indexed maps. -/
structure UserState where
  current_pas : List Nat
  sws_names : List (Nat × String)
  sws_meta : List (Nat × (String × DataValue))
  quant_type : Option Int
  analysis_user_params : List (String × DataValue)
  r_rtemp_descr : List (Nat × String)
  f_f_uids : List (Nat × Int)
  f_f_mapidx : List (Nat × Int)
deriving DecidableEq, Repr

/-- Set-insert for `current_pas_` (`std::set::insert` deduplicates). -/
def insertPA (l : List Nat) (a : Nat) : List Nat :=
  if a ∈ l then l else l ++ [a]

/-- `QcMLHandler::handleUserParam_`.  The `DataValue` conversion happens
first, unguarded: a malformed value for a numeric declared type makes the
whole call fail (`Except.error` = the C++ exception escaping the function).
The `Feature` branch converts `value` with `toInt` a second time, equally
unguarded. -/
def handleUserParam_ (parentParentTag parentTag name type value : String)
    (currentId : Nat) (st : UserState) : Except ConvError (List CVWarn × UserState) :=
  match mkDataValue type value with
  | .error e => .error e
  | .ok dv =>
  let w0 := if parentParentTag = "" then [CVWarn.noGrandParent name parentTag] else []
  if parentTag = "ProcessingMethod" then
    let x := idxOf namesOfProcessingAction name
    .ok (w0, { st with current_pas := insertPA st.current_pas x })
  else if parentTag = "Software" then
    if value = "" then
      .ok (w0, { st with sws_names := st.sws_names ++ [(currentId, name)] })
    else
      .ok (w0, { st with sws_meta := st.sws_meta ++ [(currentId, (name, dv))] })
  else if parentTag = "AnalysisSummary" then
    if name = "QuantType" then
      let i : Int :=
        if value ∈ namesOfQuantTypes then (idxOf namesOfQuantTypes value : Int) else -1
      .ok (w0, { st with quant_type := some i })
    else
      .ok (w0, { st with analysis_user_params := st.analysis_user_params ++ [(name, dv)] })
  else if parentTag = "RatioCalculation" then
    .ok (w0, { st with r_rtemp_descr := st.r_rtemp_descr ++ [(currentId, name)] })
  else if parentTag = "Feature" then
    if name = "feature_index" then
      match toIntOpt value with
      | some i => .ok (w0, { st with f_f_uids := st.f_f_uids ++ [(currentId, i)] })
      | none => .error .conversionError
    else if name = "map_index" then
      match toIntOpt value with
      | some i => .ok (w0, { st with f_f_mapidx := st.f_f_mapidx ++ [(currentId, i)] })
      | none => .error .conversionError
    else .ok (w0, st)
  else
    .ok (w0 ++ [CVWarn.unhandledUser name parentTag], st)

deriving instance DecidableEq for Except

/-- The warning is one of the two obsolete-term messages. -/
def isObsoleteWarnB : CVWarn → Bool
  | .obsoleteTerm _ _ => true
  | _ => false

/-! ## Domain model consumed by the serializer (`writeTo`)

The quantification domain objects are external collaborators; the structures
below model exactly the fields `writeTo` reads.  `UInt64` ids are modelled
as `Nat`, `Real`/`DoubleReal` as `ℚ` (no property below depends on
floating-point rounding). -/

/-- `MSQuantifications::QUANT_TYPES` (`MS1LABEL = 0`, `MS2LABEL`,
`LABELFREE`, `SIZE_OF_QUANT_TYPES`). -/
inductive QUANT_TYPES
  | MS1LABEL
  | MS2LABEL
  | LABELFREE
  | SIZE_OF_QUANT_TYPES
deriving DecidableEq, Repr, Inhabited

/-- `OpenMS::FeatureHandle` as read by the feature pass, in the iteration
order of the `IndexLess`-sorted handle set. -/
structure FeatureHandle where
  rt : ℚ
  mz : ℚ
  charge : ℤ
  intensity : ℚ
  width : ℚ
  mapIndex : Nat
  uniqueId : Nat
deriving DecidableEq, Repr, Inhabited

/-- `ConsensusFeature::Ratio`. -/
structure Ratio where
  numerator_ref : String
  denominator_ref : String
  ratio_value : ℚ
  description : List String
deriving DecidableEq, Repr, Inhabited

/-- A peptide identification attached to a consensus feature (only the
fields `writeTo` reads: the identifier and the first hit's unmodified
sequence). -/
structure PeptideIdentification where
  identifier : String
  firstHitSequence : String
deriving DecidableEq, Repr, Inhabited

/-- `OpenMS::ConsensusFeature` as read by the serializer. -/
structure ConsensusFeature where
  rt : ℚ
  mz : ℚ
  charge : ℤ
  handles : List FeatureHandle
  ratios : List Ratio
  peptideIdentifications : List PeptideIdentification
deriving DecidableEq, Repr, Inhabited

/-- A protein identification (only `getSearchParameters().db_version` is
read). -/
structure ProteinIdentification where
  dbVersion : String
deriving DecidableEq, Repr, Inhabited

/-- `OpenMS::ConsensusMap` as read by the serializer. -/
structure ConsensusMap where
  features : List ConsensusFeature
  proteinIdentifications : List ProteinIdentification
deriving DecidableEq, Repr, Inhabited

/-- One CV term of a software object, flattened from the
`Map<String, vector<CVTerm>>` that `writeCVParams_` iterates. -/
structure CVTermX where
  cvRef : String
  accession : String
  nm : String
  value : Option String
deriving DecidableEq, Repr, Inhabited

/-- `OpenMS::Software` as read by the software pass. -/
structure Software where
  name : String
  version : String
  cvTerms : List CVTermX
deriving DecidableEq, Repr, Inhabited

/-- `OpenMS::DataProcessing` as read by the software pass;
`parameterId` is `getMetaValue("parameter: id")`. -/
structure DataProcessing where
  software : Software
  processingActions : List Nat
  parameterId : String
deriving DecidableEq, Repr, Inhabited

/-- `MSQuantifications::Assay`: generated uid, label modifications
(tag-label, mass-delta pairs) and the loaded file paths of its raw files. -/
structure Assay where
  uid : Nat
  mods : List (String × ℚ)
  raw_files : List String
deriving DecidableEq, Repr, Inhabited

/-- The `MSQuantifications` object handed to `writeTo` (`cmsq_`). -/
structure MSQuantifications where
  quantType : QUANT_TYPES
  dataProcessingList : List DataProcessing
  consensusMaps : List ConsensusMap
  assays : List Assay
deriving DecidableEq, Repr, Inhabited

/-! ## The emitted document as a trace of structured events

`writeTo` is modelled as a function from the input object to the list of
emitted elements and reference attributes in document order, with the
process-wide unique-id generator modelled as a counter starting at 0. -/

/-- One emitted element or reference attribute of the output document. -/
inductive XEvent
  | xid (id : String)
  | cvDef (id : String)
  | cvParam (cvRef accession : String) (value : Option String)
  | userParam (nm : String) (value : Option String)
  | identFile (id nm sdbRef : String)
  | searchDB (id dbv : String)
  | software (id version : String)
  | dataProcessing (id swRef : String) (order : Nat)
  | processingMethod (order : Nat)
  | ratioRow (id numRef denRef : String)
  | rawGroup (id : String)
  | rawFile (id path : String)
  | assay (id rfgRef : String)
  | modification (massDelta : ℚ) (acc : Option String) (nm : String) (value : Option String)
  | studyVariable (id assayRef : String)
  | featureListOpen (id rfgRef : String)
  | feature (id : String) (rt mz : ℚ) (charge : ℤ)
  | featureQuantLayer (id : String)
  | rowIW (objectRef : String) (intensity width : ℚ)
  | ms2QuantLayer (id : String) (columnRefs : List String)
  | rowIs (objectRef : String) (intensities : List ℚ)
  | pepListOpen (id : String) (finalResult : Bool)
  | pepConsensus (id : String) (charge : ℤ) (sdbRef : Option String)
  | pepSequence (s : String)
  | evidenceRef (featureRef : String) (assayRefs : List String) (idFileRef : Option String)
  | ratioQuantLayer (id : String) (columnRefs : List String)
  | rowRs (objectRef : String) (vals : List ℚ)
deriving DecidableEq, Repr

/-- The `id="..."` strings an event defines. -/
def defsOf : XEvent → List String
  | .xid i => [i]
  | .cvDef i => [i]
  | .identFile i _ _ => [i]
  | .searchDB i _ => [i]
  | .software i _ => [i]
  | .dataProcessing i _ _ => [i]
  | .ratioRow i _ _ => [i]
  | .rawGroup i => [i]
  | .rawFile i _ => [i]
  | .assay i _ => [i]
  | .studyVariable i _ => [i]
  | .featureListOpen i _ => [i]
  | .feature i _ _ _ => [i]
  | .featureQuantLayer i => [i]
  | .ms2QuantLayer i _ => [i]
  | .pepListOpen i _ => [i]
  | .pepConsensus i _ _ => [i]
  | .ratioQuantLayer i _ => [i]
  | _ => []

/-- The reference-attribute targets an event emits (`*_ref`, `cvRef`,
`object_ref`, `Assay_refs`, column indices).  The `id_refs` attribute of an
`EvidenceRef` points into the external identification file, not into the
document, and is therefore not a document reference. -/
def refsOf : XEvent → List String
  | .cvParam r _ _ => [r]
  | .identFile _ _ s => [s]
  | .dataProcessing _ s _ => [s]
  | .ratioRow _ n d => [n, d]
  | .assay _ r => [r]
  | .modification _ (some _) _ _ => ["PSI-MOD"]
  | .studyVariable _ a => [a]
  | .featureListOpen _ r => [r]
  | .ms2QuantLayer _ cols => cols
  | .rowIW r _ _ => [r]
  | .rowIs r _ => [r]
  | .pepConsensus _ _ (some s) => [s]
  | .evidenceRef f as idf => f :: as ++ idf.toList
  | .ratioQuantLayer _ cols => cols
  | .rowRs r _ => [r]
  | _ => []

/-! ## The serializer, pass by pass -/

/-- Header and `<CvList>`: the stylesheet id and the three fixed CV
entries. -/
def headerEvents : List XEvent :=
  [.xid "stylesheet", .cvDef "PSI-MS", .cvDef "PSI-MOD", .cvDef "UO"]

/-- `<AnalysisSummary>`: the fixed CV-term bundle selected by the
quantification type (cases 0-3 of the first switch). -/
def analysisSummaryEvents : QUANT_TYPES → List XEvent
  | .MS1LABEL =>
      [.cvParam "PSI-MS" "MS:1002018" none,
       .cvParam "PSI-MS" "MS:1001837" none,
       .cvParam "PSI-MS" "MS:1002001" (some "true"),
       .cvParam "PSI-MS" "MS:1002002" (some "true"),
       .cvParam "PSI-MS" "MS:1002003" (some "false"),
       .cvParam "PSI-MS" "MS:1002004" (some "false")]
  | .MS2LABEL =>
      [.cvParam "PSI-MS" "MS:1002023" none,
       .cvParam "PSI-MS" "MS:1002024" (some "true"),
       .cvParam "PSI-MS" "MS:1002025" (some "true"),
       .cvParam "PSI-MS" "MS:1002026" (some "false"),
       .cvParam "PSI-MS" "MS:1002027" (some "false")]
  | .LABELFREE => []
  | .SIZE_OF_QUANT_TYPES => []

/-- `writeCVParams_`: one `cvParam` per flattened CV term. -/
def writeCVParamsEvents (ts : List CVTermX) : List XEvent :=
  ts.map fun t => .cvParam t.cvRef t.accession t.value

/-- Accumulator of the software / data-processing pass.  The string tags
`softwarelist_tag` / `dataprocessinglist_tag` / `idfile_tag` become the
three event lists; `idfileRef` / `searchdbRef` are the captured reference
strings (empty until a matching step is seen). -/
structure SwOut where
  idfileEvents : List XEvent
  swEvents : List XEvent
  dpEvents : List XEvent
  idfileRef : String
  searchdbRef : String
  order_d : Nat
  n : Nat
deriving DecidableEq, Repr

/-- One iteration of the data-processing loop of `writeTo`: the (unguarded)
IDMapper identification-file block, then the software entry, then the
data-processing entry with its ordered processing actions. -/
def swStep (hasIds : Bool) (dbv : String) (acc : SwOut) (dit : DataProcessing) : SwOut :=
  let acc :=
    if dit.software.name = "IDMapper" ∧ hasIds then
      let sdb := "sdb_" ++ toString acc.n
      let idf := "idf_" ++ toString (acc.n + 1)
      { acc with
        n := acc.n + 2,
        searchdbRef := sdb,
        idfileRef := idf,
        idfileEvents := acc.idfileEvents ++
          [.identFile idf dit.parameterId sdb, .searchDB sdb dbv] }
    else acc
  let swRef := "sw_" ++ toString acc.n
  let swEvts := [XEvent.software swRef dit.software.version] ++
      writeCVParamsEvents dit.software.cvTerms ++
      (if dit.software.cvTerms.isEmpty then [XEvent.userParam dit.software.name none]
       else []) ++
      (if dit.software.name = "ITRAQAnalyzer" then
        [XEvent.cvParam "PSI-MS" "MS:1001831" none] else [])
  let dpRef := "dp_" ++ toString (acc.n + 1)
  let paEvts := (List.range dit.processingActions.length).flatMap fun i =>
      [XEvent.processingMethod (i + 1),
       XEvent.userParam (namesOfProcessingAction.getD (dit.processingActions.getD i 0) "")
         (some dit.software.name)]
  { acc with
    n := acc.n + 2,
    order_d := acc.order_d + 1,
    swEvents := acc.swEvents ++ swEvts,
    dpEvents := acc.dpEvents ++ [XEvent.dataProcessing dpRef swRef (acc.order_d + 1)] ++ paEvts }

/-- The software / data-processing pass (`for dit in getDataProcessingList()`). -/
def swPass (hasIds : Bool) (dbv : String) (steps : List DataProcessing) (n : Nat) : SwOut :=
  steps.foldl (swStep hasIds dbv)
    { idfileEvents := [], swEvents := [], dpEvents := [], idfileRef := "",
      searchdbRef := "", order_d := 0, n := n }

/-- State of the ratio-registration loop: `numden_r_ids_` (concatenated-key
to allocated id, insert-if-absent) and `r_r_obj_` (allocated id to ratio
object, inserted every iteration). -/
structure RegOut where
  numden : List (String × Nat)
  rrobj : List (Nat × Ratio)
  n : Nat
deriving DecidableEq, Repr

/-- One ratio registration: a fresh id is allocated unconditionally;
`numden_r_ids_.insert` keeps the first id per concatenated key. -/
def regStep (acc : RegOut) (r : Ratio) : RegOut :=
  let rd := r.numerator_ref ++ r.denominator_ref
  { numden := if (lookupA acc.numden rd).isSome then acc.numden
              else acc.numden ++ [(rd, acc.n)],
    rrobj := acc.rrobj ++ [(acc.n, r)],
    n := acc.n + 1 }

/-- All ratios of all consensus features of all consensus maps, in the
traversal order of the registration loop. -/
def allRatios (msq : MSQuantifications) : List Ratio :=
  (msq.consensusMaps.flatMap (·.features)).flatMap (·.ratios)

/-- The ratio-registration loop (MS1-label only). -/
def registerRatios (rs : List Ratio) (n : Nat) : RegOut :=
  rs.foldl regStep { numden := [], rrobj := [], n := n }

/-- `<RatioList>`: one Ratio row per entry of `numden_r_ids_`, looking the
ratio object up through the stored id, with its description user-params and
the fixed numerator/denominator data-type terms. -/
def ratioSectionEvents (reg : RegOut) : List XEvent :=
  reg.numden.flatMap fun p =>
    let robj := (lookupA reg.rrobj p.2).getD default
    [XEvent.ratioRow ("r_" ++ toString p.2) ("a_" ++ robj.numerator_ref)
        ("a_" ++ robj.denominator_ref)] ++
    robj.description.map (fun d => XEvent.userParam d none) ++
    [XEvent.cvParam "PSI-MS" "MS:1001848" none,
     XEvent.cvParam "PSI-MS" "MS:1001847" none,
     XEvent.cvParam "PSI-MS" "MS:1001847" none]

/-- C++ truncation of a floating value to `int` (toward zero), used by the
MS2 reporter-mass switch. -/
def cppTrunc (q : ℚ) : ℤ := if 0 ≤ q then ⌊q⌋ else ⌈q⌉

/-- The `<Label>` block of one assay: the per-mode modification switch of
the assay pass (MS1 rounds the mass delta with `floor(x + 0.5)` and maps it
through the SILAC table; MS2 truncates and maps through the iTRAQ reporter
table; other modes emit the fixed no-label entry). -/
def labelEvents (qt : QUANT_TYPES) (a : Assay) : List XEvent :=
  match qt with
  | .MS1LABEL => a.mods.map fun lit =>
      let r : ℤ := ⌊lit.2 + 1/2⌋
      let cv : String × String :=
        if r = 6 then ("MOD:00544", "6x(13)C labeled residue")
        else if r = 8 then ("MOD:00582", "6x(13)C,2x(15)N labeled L-lysine")
        else if r = 10 then ("MOD:00587", "6x(13)C,4x(15)N labeled L-arginine")
        else ("MS:1002038", "unlabeled sample")
      XEvent.modification lit.2 (some cv.1) cv.2 (some lit.1)
  | .MS2LABEL => a.mods.map fun lit =>
      let i : ℤ := cppTrunc lit.2
      let cv : String × String :=
        if i = 114 then ("MOD:01522", "iTRAQ4plex-114 reporter fragment")
        else if i = 115 then ("MOD:01523", "iTRAQ4plex-115 reporter fragment")
        else if i = 116 then ("MOD:01524", "iTRAQ4plex-116 reporter fragment")
        else if i = 117 then ("MOD:01525", "iTRAQ4plex-117, mTRAQ heavy, reporter fragment")
        else ("MOD:00564", "Applied Biosystems iTRAQ(TM) multiplexed quantitation chemistry")
      XEvent.modification 145 (some cv.1) cv.2 (some lit.1)
  | _ => [XEvent.modification 0 none "no label" none]

/-- State of the raw-file loop inside one assay iteration: the current
`rfgr` (initially this assay's fresh id, overwritten by `files` lookups),
the `group_exists` flag, the pending `rgs` string contents, the global
path-to-group map `files` and `glob_rfgr`. -/
structure RawAcc where
  rfgr : String
  group_exists : Bool
  rgs : List XEvent
  files : List (String × String)
  glob : String
  n : Nat
deriving DecidableEq, Repr

/-- One raw file of an assay: an unseen path marks the group as new,
records `files[path] := rfgr` (the current value) and emits the RawFile
entry; a seen path redirects `rfgr` to the stored group id. -/
def rawFileStep (acc : RawAcc) (path : String) : RawAcc :=
  match lookupA acc.files path with
  | none =>
      { acc with
        group_exists := false,
        glob := acc.rfgr,
        files := acc.files ++ [(path, acc.rfgr)],
        rgs := acc.rgs ++ [XEvent.rawFile ("r_" ++ toString acc.n) path],
        n := acc.n + 1 }
  | some g => { acc with rfgr := g }

/-- Accumulator of the assay / study-variable / input-files pass. -/
structure AssayOut where
  inputEvents : List XEvent
  assayEvents : List XEvent
  studyEvents : List XEvent
  files : List (String × String)
  glob : String
  n : Nat
deriving DecidableEq, Repr

/-- One assay iteration: allocate the group id and study-variable id, run
the raw-file loop, emit the group (under its initial header id) only when a
new path appeared, then the Assay (referencing the final `rfgr`), its label
block, and the study variable. -/
def assayStep (qt : QUANT_TYPES) (acc : AssayOut) (a : Assay) : AssayOut :=
  let rfgr0 := toString acc.n
  let vr := toString (acc.n + 1)
  let inner := a.raw_files.foldl rawFileStep
    { rfgr := rfgr0, group_exists := true, rgs := [], files := acc.files,
      glob := acc.glob, n := acc.n + 2 }
  { inputEvents := acc.inputEvents ++
      (if inner.group_exists then []
       else [XEvent.rawGroup ("rfg_" ++ rfgr0)] ++ inner.rgs),
    assayEvents := acc.assayEvents ++
      [XEvent.assay ("a_" ++ toString a.uid) ("rfg_" ++ inner.rfgr)] ++ labelEvents qt a,
    studyEvents := acc.studyEvents ++
      [XEvent.studyVariable ("v_" ++ vr) ("a_" ++ toString a.uid)],
    files := inner.files, glob := inner.glob, n := inner.n }

/-- The assay / study-variable / input-files pass. -/
def assayPass (qt : QUANT_TYPES) (assays : List Assay) (n : Nat) : AssayOut :=
  assays.foldl (assayStep qt)
    { inputEvents := [], assayEvents := [], studyEvents := [], files := [],
      glob := "", n := n }

/-- Accumulator of the feature pass: `fid`, `fin`, `fwi`, `f2i`, `cid` and
the growing `feature_xml` events. -/
structure FeatAcc where
  fid : List Nat
  fin : List ℚ
  fwi : List ℚ
  f2i : List (List ℚ)
  cid : List (List (List Nat))
  events : List XEvent
  n : Nat
deriving DecidableEq, Repr

/-- One feature handle in MS1 mode: allocate its id, record intensity and
width, emit the Feature element with its two user-params, extend `idvec`. -/
def featHandleStep (acc : FeatAcc × List Nat) (fh : FeatureHandle) : FeatAcc × List Nat :=
  let a := acc.1
  let f := a.n
  ({ a with
     n := a.n + 1,
     fid := a.fid ++ [f],
     fin := a.fin ++ [fh.intensity],
     fwi := a.fwi ++ [fh.width],
     events := a.events ++
       [XEvent.feature ("f_" ++ toString f) fh.rt fh.mz fh.charge,
        XEvent.userParam "map_index" (some (toString fh.mapIndex)),
        XEvent.userParam "feature_index" (some (toString fh.uniqueId))] },
   acc.2 ++ [f])

/-- One consensus feature of the feature loop, by quantification type. -/
def featConsStep (qt : QUANT_TYPES) (acc : FeatAcc × List (List Nat))
    (cf : ConsensusFeature) : FeatAcc × List (List Nat) :=
  match qt with
  | .MS1LABEL =>
      let c := acc.1.n
      let res := cf.handles.foldl featHandleStep ({ acc.1 with n := acc.1.n + 1 }, [c])
      (res.1, acc.2 ++ [res.2])
  | .MS2LABEL =>
      let a := acc.1
      let f := a.n
      ({ a with
         n := a.n + 1,
         fid := a.fid ++ [f],
         events := a.events ++ [XEvent.feature ("f_" ++ toString f) cf.rt cf.mz cf.charge],
         f2i := a.f2i ++ [cf.handles.map (·.intensity)] }, acc.2)
  | _ => acc

/-- One consensus map of the feature loop: process its features, then push
the collected `cmid` onto `cid` (this happens for every map and mode). -/
def featMapStep (qt : QUANT_TYPES) (a : FeatAcc) (m : ConsensusMap) : FeatAcc :=
  let res := m.features.foldl (featConsStep qt) (a, [])
  { res.1 with cid := res.1.cid ++ [res.2] }

/-- The feature pass: the FeatureList open (referencing `glob_rfgr`), the
per-map feature loop, then the mode-dependent quant layer. -/
def featPass (msq : MSQuantifications) (glob : String) (n : Nat) : FeatAcc :=
  let init : FeatAcc :=
    { fid := [], fin := [], fwi := [], f2i := [], cid := [],
      events := [.featureListOpen "featurelist1" ("rfg_" ++ glob)], n := n }
  let a := msq.consensusMaps.foldl (featMapStep msq.quantType) init
  match msq.quantType with
  | .MS1LABEL =>
      { a with
        n := a.n + 1,
        events := a.events ++
          [XEvent.featureQuantLayer ("q_" ++ toString a.n),
           XEvent.cvParam "PSI-MS" "MS:1001141" none,
           XEvent.cvParam "PSI-MS" "MS:1000086" none] ++
          (a.fid.zip (a.fin.zip a.fwi)).map
            (fun p => XEvent.rowIW ("f_" ++ toString p.1) p.2.1 p.2.2) }
  | .MS2LABEL =>
      { a with
        n := a.n + 1,
        events := a.events ++
          [XEvent.ms2QuantLayer ("ms2ql_" ++ toString a.n)
             (msq.assays.map (fun as => "a_" ++ toString as.uid)),
           XEvent.cvParam "PSI-MS" "MS:1001847" none] ++
          (a.fid.zip a.f2i).map (fun p => XEvent.rowIs ("f_" ++ toString p.1) p.2) }
  | _ => a

/-- First-wins deduplication of ratios by the concatenation of numerator and
denominator reference strings (the `r_values` / `numden_r_ids_` map
semantics). -/
def dedupGo (seen : List String) : List Ratio → List Ratio
  | [] => []
  | r :: t =>
      if (r.numerator_ref ++ r.denominator_ref) ∈ seen then dedupGo seen t
      else r :: dedupGo (seen ++ [r.numerator_ref ++ r.denominator_ref]) t

/-- First occurrence per concatenated key, in traversal order. -/
def dedupFirstByKey (rs : List Ratio) : List Ratio := dedupGo [] rs

/-- Iteration `k` of the peptide-consensus loop (`for k < cid.size()`),
by quantification type.  Returns the emitted events and the counter.

The MS2 branch iterates `for i < fid.size()` — `fid` collects one feature
id per consensus feature of **all** maps — while reading
`getConsensusMaps()[k][i]` through unchecked `std::vector::operator[]`
(the source comments "would break if there is more than one
consensusmap").  As soon as `i` passes the end of map `k` the program's
behaviour is undefined, so the branch is `Option`-valued and returns
`none` at the first out-of-bounds feature read; no defined output is
fabricated for that case. -/
def pepK (msq : MSQuantifications) (sdb idf : String) (numden : List (String × Nat))
    (cid : List (List (List Nat))) (fid : List Nat) (k : Nat) (n : Nat) :
    Option (List XEvent × Nat) :=
  match msq.quantType with
  | .MS1LABEL =>
      let cids := cid.getD k []
      let feats := (msq.consensusMaps.getD k default).features
      let consEvents := (List.range cids.length).flatMap fun i =>
        let cidki := cids.getD i []
        [XEvent.pepConsensus ("c_" ++ toString (cidki.headD 0))
            ((feats.getD i default).charge) none] ++
        (List.range (cidki.length - 1)).map (fun j0 =>
           XEvent.evidenceRef ("f_" ++ toString (cidki.getD (j0 + 1) 0))
             ["a_" ++ toString ((msq.assays.getD j0 default).uid)] none)
      let colrefs := numden.map (fun p => "r_" ++ toString p.2)
      let rows := (List.range cids.length).map (fun i =>
         XEvent.rowRs ("c_" ++ toString ((cids.getD i []).headD 0))
           ((dedupFirstByKey ((feats.getD i default).ratios)).map (·.ratio_value)))
      some ([XEvent.pepListOpen ("m_" ++ toString n) true] ++ consEvents ++
       [XEvent.ratioQuantLayer ("q_" ++ toString (n + 1)) colrefs,
        XEvent.cvParam "PSI-MS" "MS:1001132" none] ++ rows, n + 2)
  | .MS2LABEL =>
      if sdb ≠ "" ∧ k < 2 then
        let assRefs := msq.assays.map (fun a => "a_" ++ toString a.uid)
        let feats := (msq.consensusMaps.getD k default).features
        let inner := (List.range fid.length).foldl
          (fun (acc : Option (List XEvent × Nat)) i =>
            acc.bind fun a =>
              (feats[i]?).map fun cf =>
                if cf.peptideIdentifications ≠ [] then
                  (a.1 ++
                    [XEvent.pepConsensus ("c_" ++ toString a.2) cf.charge (some sdb),
                     XEvent.pepSequence
                       ((cf.peptideIdentifications.headD default).firstHitSequence),
                     XEvent.evidenceRef ("f_" ++ toString (fid.getD i 0)) assRefs (some idf)],
                   a.2 + 1)
                else a) (some ([], n + 1))
        inner.map fun r => ([XEvent.pepListOpen ("m_" ++ toString n) false] ++ r.1, r.2)
      else some ([], n)
  | _ => some ([], n)

/-- The peptide-consensus pass over all collected `cid` entries; `none` as
soon as one iteration performs an out-of-bounds feature read (from that
point on the C++ has no defined behaviour and never reaches the final
`os <<` emission). -/
def pepPass (msq : MSQuantifications) (sdb idf : String) (numden : List (String × Nat))
    (cid : List (List (List Nat))) (fid : List Nat) (n : Nat) :
    Option (List XEvent × Nat) :=
  (List.range cid.length).foldl (fun acc k =>
    acc.bind fun a =>
      (pepK msq sdb idf numden cid fid k a.2).map fun r => (a.1 ++ r.1, r.2))
    (some ([], n))

/-- `!cmsq_->getConsensusMaps().front().getProteinIdentifications().empty()`
(the C++ dereferences `front()` unconditionally; an empty map list is
totalized to the default map, whose identification list is empty). -/
def hasProtIdsB (msq : MSQuantifications) : Bool :=
  !(msq.consensusMaps.headD default).proteinIdentifications.isEmpty

/-- The `db_version` string read for the SearchDatabase element. -/
def dbVer (msq : MSQuantifications) : String :=
  ((msq.consensusMaps.headD default).proteinIdentifications.headD default).dbVersion

/-- `QcMLHandler::writeTo` as an event trace: passes are computed in source
order (software, ratio registration, assays, features, peptides — this is
the id-allocation order) and concatenated in emission order
(header, CvList, AnalysisSummary, InputFiles, SoftwareList,
DataProcessingList, AssayList, StudyVariableList, RatioList,
peptide-consensus lists, FeatureList).

When the peptide pass performs an out-of-bounds feature read (`pepPass`
returns `none`) the program's behaviour is undefined and no document is
produced; so that the trace stays a total function, only this boundary is
totalized — to the empty peptide segment, whose contents no theorem draws
on.  Inputs whose peptide pass stays in bounds are certified by
`pepInBoundsB`. -/
def trace (msq : MSQuantifications) : List XEvent :=
  let sw := swPass (hasProtIdsB msq) (dbVer msq) msq.dataProcessingList 0
  let reg := if msq.quantType = .MS1LABEL then registerRatios (allRatios msq) sw.n
             else { numden := [], rrobj := [], n := sw.n }
  let ratioEvts := if msq.quantType = .MS1LABEL then ratioSectionEvents reg else []
  let ap := assayPass msq.quantType msq.assays reg.n
  let fp := featPass msq ap.glob ap.n
  let pep := (pepPass msq sw.searchdbRef sw.idfileRef reg.numden fp.cid fp.fid fp.n).getD
    ([], fp.n)
  headerEvents ++ analysisSummaryEvents msq.quantType ++
    ap.inputEvents ++ sw.idfileEvents ++
    sw.swEvents ++ sw.dpEvents ++
    [XEvent.xid "assaylist1"] ++ ap.assayEvents ++ ap.studyEvents ++
    ratioEvts ++ pep.1 ++ fp.events

/-- The peptide pass of `writeTo` performs only in-bounds feature reads on
this input: its `Option`-valued embedding succeeds, so the program's
behaviour is defined throughout. -/
def pepInBoundsB (msq : MSQuantifications) : Bool :=
  let sw := swPass (hasProtIdsB msq) (dbVer msq) msq.dataProcessingList 0
  let reg := if msq.quantType = .MS1LABEL then registerRatios (allRatios msq) sw.n
             else { numden := [], rrobj := [], n := sw.n }
  let ap := assayPass msq.quantType msq.assays reg.n
  let fp := featPass msq ap.glob ap.n
  (pepPass msq sw.searchdbRef sw.idfileRef reg.numden fp.cid fp.fid fp.n).isSome

/-! ## Derived observations on traces -/

/-- Scan of a trace checking, for every event satisfying `p`, that each of
its reference targets was defined by a strictly earlier event. -/
def refsResolveFrom (p : XEvent → Bool) : List String → List XEvent → Bool
  | _, [] => true
  | ds, e :: t =>
      (!(p e) || (refsOf e).all fun r => decide (r ∈ ds)) &&
      refsResolveFrom p (ds ++ defsOf e) t

/-- Every reference attribute in the trace resolves to an id emitted
strictly earlier in document order. -/
def resolvesEarlierB (tr : List XEvent) : Bool :=
  refsResolveFrom (fun _ => true) [] tr

/-- Some `EvidenceRef` in the trace carries a `feature_ref` whose target id
is defined by a strictly later event (a forward reference). -/
def evidenceFeatureForward : List XEvent → Bool
  | [] => false
  | e :: t =>
      (match e with
       | .evidenceRef f _ _ => decide (f ∈ t.flatMap defsOf)
       | _ => false) || evidenceFeatureForward t

/-- Constructor discriminators used to count events of one kind. -/
def isIdentFileB : XEvent → Bool
  | .identFile _ _ _ => true
  | _ => false

/-- The event is a `PeptideConsensusList` opening. -/
def isPepListOpenB : XEvent → Bool
  | .pepListOpen _ _ => true
  | _ => false

/-- The event is a `RawFilesGroup` element. -/
def isRawGroupB : XEvent → Bool
  | .rawGroup _ => true
  | _ => false

/-- The event is a `DataProcessing` element. -/
def isDataProcessingB : XEvent → Bool
  | .dataProcessing _ _ _ => true
  | _ => false

/-- The event is a Ratio row with the given numerator and denominator
reference strings. -/
def isRatioRowPairB (nr dr : String) : XEvent → Bool
  | .ratioRow _ n d => decide (n = nr) && decide (d = dr)
  | _ => false

/-- The event is any Ratio row. -/
def isRatioRowB : XEvent → Bool
  | .ratioRow _ _ _ => true
  | _ => false

/-- The `searchDatabase_ref` of a `PeptideConsensus` event. -/
def pepSdbRef : XEvent → Option String
  | .pepConsensus _ _ s => s
  | _ => none

/-- The `(id, rawFilesGroup_ref)` pairs of the Assay elements, in document
order. -/
def assayRefList (tr : List XEvent) : List (String × String) :=
  tr.filterMap fun e =>
    match e with
    | .assay i r => some (i, r)
    | _ => none

/-- The table position of the claim-facing MS1 label mapping: the rounded
mass delta (`floor(x + 0.5)`, round-half-up to the nearest integer). -/
def roundNearest (q : ℚ) : ℤ := ⌊q + 1/2⌋

/-- The claim-facing MS1 mass-delta accession table. -/
def ms1AccTable (r : ℤ) : String :=
  if r = 6 then "MOD:00544"
  else if r = 8 then "MOD:00582"
  else if r = 10 then "MOD:00587"
  else "MS:1002038"

/-- The claim-facing MS1 mass-delta name table. -/
def ms1NameTable (r : ℤ) : String :=
  if r = 6 then "6x(13)C labeled residue"
  else if r = 8 then "6x(13)C,2x(15)N labeled L-lysine"
  else if r = 10 then "6x(13)C,4x(15)N labeled L-arginine"
  else "unlabeled sample"

/-! ## Event kinds per document section -/

/-- Events the header / CvList / AnalysisSummary sections may contain. -/
def headerKindB : XEvent → Bool
  | .xid _ | .cvDef _ | .cvParam _ _ _ => true
  | _ => false

/-- Events the identification-file block may contain. -/
def idfileKindB : XEvent → Bool
  | .identFile _ _ _ | .searchDB _ _ => true
  | _ => false

/-- Events the software list may contain. -/
def swKindB : XEvent → Bool
  | .software _ _ | .cvParam _ _ _ | .userParam _ _ => true
  | _ => false

/-- Events the data-processing list may contain. -/
def dpKindB : XEvent → Bool
  | .dataProcessing _ _ _ | .processingMethod _ | .userParam _ _ => true
  | _ => false

/-- Events the input-files raw-group section may contain. -/
def inputKindB : XEvent → Bool
  | .rawGroup _ | .rawFile _ _ => true
  | _ => false

/-- Events the assay list may contain. -/
def assayKindB : XEvent → Bool
  | .assay _ _ | .modification _ _ _ _ => true
  | _ => false

/-- Events the study-variable list may contain. -/
def studyKindB : XEvent → Bool
  | .studyVariable _ _ => true
  | _ => false

/-- Events the ratio list may contain. -/
def ratioKindB : XEvent → Bool
  | .ratioRow _ _ _ | .userParam _ _ | .cvParam _ _ _ => true
  | _ => false

/-- Events the feature list may contain. -/
def featKindB : XEvent → Bool
  | .featureListOpen _ _ | .feature _ _ _ _ | .userParam _ _
  | .featureQuantLayer _ | .cvParam _ _ _ | .rowIW _ _ _
  | .ms2QuantLayer _ _ | .rowIs _ _ => true
  | _ => false

/-- Events the peptide-consensus lists may contain. -/
def pepKindB : XEvent → Bool
  | .pepListOpen _ _ | .pepConsensus _ _ _ | .pepSequence _
  | .evidenceRef _ _ _ | .ratioQuantLayer _ _ | .cvParam _ _ _
  | .rowRs _ _ => true
  | _ => false

/-! ## Concrete inputs used to settle individual claims -/

/-- MS1-label input with one assay, one raw file and one consensus feature
with a single feature handle. -/
def msqC1 : MSQuantifications :=
  { quantType := .MS1LABEL,
    dataProcessingList := [],
    consensusMaps :=
      [{ features :=
          [{ rt := 10, mz := 500, charge := 2,
             handles := [{ rt := 10, mz := 500, charge := 2, intensity := 100,
                           width := 2, mapIndex := 0, uniqueId := 42 }],
             ratios := [], peptideIdentifications := [] }],
         proteinIdentifications := [] }],
    assays := [{ uid := 11, mods := [], raw_files := ["p.raw"] }] }

/-- A data-processing step whose software is the identification mapper. -/
def dpIDMapper : DataProcessing :=
  { software := { name := "IDMapper", version := "1.0", cvTerms := [] },
    processingActions := [], parameterId := "ids.idXML" }

/-- MS2-tag input with two IDMapper steps and one identified consensus
feature. -/
def msqC4 : MSQuantifications :=
  { quantType := .MS2LABEL,
    dataProcessingList := [dpIDMapper, dpIDMapper],
    consensusMaps :=
      [{ features :=
          [{ rt := 1, mz := 2, charge := 2, handles := [], ratios := [],
             peptideIdentifications :=
               [{ identifier := "run1", firstHitSequence := "PEPTIDE" }] }],
         proteinIdentifications := [{ dbVersion := "sp" }] }],
    assays := [] }

/-- MS2-tag input with one IDMapper step and two consensus maps that carry
no consensus features: the peptide pass's inner loop (bounded by the empty
`fid`) reads no features at all, so the execution is defined throughout,
while the first map's protein identification makes the identification-file
reference nonempty. -/
def msqC6 : MSQuantifications :=
  { quantType := .MS2LABEL,
    dataProcessingList := [dpIDMapper],
    consensusMaps :=
      [{ features := [], proteinIdentifications := [{ dbVersion := "sp" }] },
       { features := [], proteinIdentifications := [] }],
    assays := [] }

/-- MS1-label input in which the ratio pair `("ab","c")` occurs on two
consensus features while an earlier feature carries `("a","bc")` — a
distinct pair with the same concatenated key `"abc"`. -/
def msqC7 : MSQuantifications :=
  { quantType := .MS1LABEL,
    dataProcessingList := [],
    consensusMaps :=
      [{ features :=
          [{ rt := 1, mz := 1, charge := 1, handles := [],
             ratios := [{ numerator_ref := "a", denominator_ref := "bc",
                          ratio_value := 1, description := [] }],
             peptideIdentifications := [] },
           { rt := 2, mz := 2, charge := 1, handles := [],
             ratios := [{ numerator_ref := "ab", denominator_ref := "c",
                          ratio_value := 2, description := [] }],
             peptideIdentifications := [] },
           { rt := 3, mz := 3, charge := 1, handles := [],
             ratios := [{ numerator_ref := "ab", denominator_ref := "c",
                          ratio_value := 3, description := [] }],
             peptideIdentifications := [] }],
         proteinIdentifications := [] }],
    assays := [] }

/-- MS1-label input with two consensus features carrying the same ratio pair
`("X","Y")` and no colliding key, used to witness the deduplication
theorem. -/
def msqC7w : MSQuantifications :=
  { quantType := .MS1LABEL,
    dataProcessingList := [],
    consensusMaps :=
      [{ features :=
          [{ rt := 1, mz := 1, charge := 1, handles := [],
             ratios := [{ numerator_ref := "X", denominator_ref := "Y",
                          ratio_value := 1, description := [] }],
             peptideIdentifications := [] },
           { rt := 2, mz := 2, charge := 1, handles := [],
             ratios := [{ numerator_ref := "X", denominator_ref := "Y",
                          ratio_value := 2, description := [] }],
             peptideIdentifications := [] }],
         proteinIdentifications := [] }],
    assays := [] }

/-- Label-free input with three assays: the first and third share the raw
file path `"P"`, but the third also lists `"S"` (first seen in the second
assay). -/
def msqC8 : MSQuantifications :=
  { quantType := .LABELFREE,
    dataProcessingList := [],
    consensusMaps := [],
    assays :=
      [{ uid := 1, mods := [], raw_files := ["P"] },
       { uid := 2, mods := [], raw_files := ["S"] },
       { uid := 3, mods := [], raw_files := ["P", "S"] }] }

/-- MS1-label input with one assay carrying one label modification, used to
witness the label-mapping theorem. -/
def msqC9w : MSQuantifications :=
  { quantType := .MS1LABEL,
    dataProcessingList := [],
    consensusMaps := [],
    assays := [{ uid := 7, mods := [("Lys8", 8)], raw_files := [] }] }

/-! ## Lemmas about the validator -/

theorem cvValueCheck_countP_obsolete (term : CVTermOnt) (accession parentTag value : String) :
    (cvValueCheck term accession parentTag value).1.countP isObsoleteWarnB = 0 := by
  unfold cvValueCheck
  repeat' split
  all_goals simp [isObsoleteWarnB]

theorem routeCV_countP_obsolete (parentParentTag parentTag accession name : String)
    (st : ParseState) :
    (routeCV parentParentTag parentTag accession name st).1.countP isObsoleteWarnB = 0 := by
  unfold routeCV
  repeat' split
  all_goals simp [isObsoleteWarnB]

/-! ## Claims about the validator and the user-parameter handler -/

/-- Claim C2, counterexample: for an accession absent from the ontology with
parent tag `sample`, the handler does not exit silently — it falls through to
the routing phase and (with any other grandparent tag) logs an
`Unhandled cvParam` warning, so the emitted warning list is nonempty. -/
theorem claim_C2_counterexample :
    (handleCVParam_ [] "x" "sample" "FOO:1" "n" "" ⟨0, [], []⟩).1 =
      [CVWarn.unhandledCV "n" "sample"] ∧
    (handleCVParam_ [] "x" "sample" "FOO:1" "n" "" ⟨0, [], []⟩).1 ≠ [] := by
  constructor
  · decide
  · decide

/-- Claim C2, amended: for an accession absent from the ontology with parent
tag `sample`, the validation phase is skipped silently (no `UnknownTerm`
warning), but the event still proceeds to the routing phase — the whole call
behaves exactly like the routing table alone, which may mutate an
accumulator or emit an `UnhandledAnnotation` warning. -/
theorem claim_C2_theorem (ont : CVOnt) (ppTag acc name value : String) (st : ParseState)
    (h : lookupA ont acc = none) :
    handleCVParam_ ont ppTag "sample" acc name value st =
      routeCV ppTag "sample" acc name st := by
  simp [handleCVParam_, cvValidate, h]

/-- Claim C2, witness: the amended theorem applied at a concrete input. -/
theorem claim_C2_witness :
    lookupA ([] : CVOnt) "FOO:1" = none ∧
    handleCVParam_ [] "x" "sample" "FOO:1" "n" "" ⟨0, [], []⟩ =
      routeCV "x" "sample" "FOO:1" "n" ⟨0, [], []⟩ :=
  ⟨rfl, claim_C2_theorem [] "x" "FOO:1" "n" "" ⟨0, [], []⟩ rfl⟩

/-- Claim C3, counterexample: `handleUserParam_` with declared type
`xsd:double` and the non-numeric value `"abc"` does let the conversion
failure escape to the caller (`Except.error` models the uncaught
`ConversionError`), contradicting the claim that it is always caught and
turned into a `TypeMismatch` warning. -/
theorem claim_C3_counterexample :
    handleUserParam_ "g" "Software" "nm" "xsd:double" "abc" 0
      ⟨[], [], [], none, [], [], [], []⟩ = .error .conversionError := by
  decide

/-- Claim C3, amended: inside `handleCVParam_` a failed numeric parse is
caught at the point of failure and became a `TypeMismatch` warning with the
routing phase skipped, but `handleUserParam_` converts the declared type
outside any `try`/`catch`, so a floating-point declared type with an
unparsable value propagates the conversion failure to the caller. -/
theorem claim_C3_theorem :
    (∀ (ont : CVOnt) (ppTag pTag acc name value : String) (st : ParseState) (t : CVTermOnt),
      lookupA ont acc = some t → t.xref_type = .XSD_INTEGER → value ≠ "" →
      toIntOpt value = none →
      handleCVParam_ ont ppTag pTag acc name value st =
        ((cvValidate ont pTag acc name value).1, st) ∧
      CVWarn.typeMismatchInteger acc pTag value ∈ (cvValidate ont pTag acc name value).1) ∧
    (∀ (ppTag pTag name value : String) (cid : Nat) (st : UserState),
      toDoubleOpt value = none →
      handleUserParam_ ppTag pTag name "xsd:double" value cid st = .error .conversionError) := by
  constructor
  · intro ont ppTag pTag acc name value st t hl hx hv hi
    have hval : cvValueCheck t acc pTag value =
        ([.typeMismatchInteger acc pTag value], true) := by
      unfold cvValueCheck
      rw [if_pos hv, hx, hi]
    constructor
    · simp [handleCVParam_, cvValidate, hl, hval]
    · simp [cvValidate, hl, hval]
  · intro ppTag pTag name value cid st h
    unfold handleUserParam_
    rw [mkDataValue, if_pos (Or.inl rfl), h]

/-- Claim C3, witness: the amended theorem applied at concrete inputs. -/
theorem claim_C3_witness :
    (handleCVParam_ [("T:1", ⟨"T:1", "t", false, .XSD_INTEGER⟩)] "g" "x" "T:1" "t" "abc"
        ⟨0, [], []⟩ =
      ((cvValidate [("T:1", ⟨"T:1", "t", false, .XSD_INTEGER⟩)] "x" "T:1" "t" "abc").1,
        ⟨0, [], []⟩) ∧
      CVWarn.typeMismatchInteger "T:1" "x" "abc" ∈
        (cvValidate [("T:1", ⟨"T:1", "t", false, .XSD_INTEGER⟩)] "x" "T:1" "t" "abc").1) ∧
    handleUserParam_ "g" "AnalysisSummary" "n" "xsd:double" "zz" 0
      ⟨[], [], [], none, [], [], [], []⟩ = .error .conversionError :=
  ⟨claim_C3_theorem.1 [("T:1", ⟨"T:1", "t", false, .XSD_INTEGER⟩)] "g" "x" "T:1" "t" "abc"
      ⟨0, [], []⟩ ⟨"T:1", "t", false, .XSD_INTEGER⟩ rfl rfl (by decide) rfl,
    claim_C3_theorem.2 "g" "AnalysisSummary" "n" "zz" 0 ⟨[], [], [], none, [], [], [], []⟩ rfl⟩

/-- Claim C5, counterexample: for a term present in the ontology and marked
obsolete, the handler logs the `Obsolete CV term` warning twice (the check is
duplicated before and after the name comparison), not once as claimed. -/
theorem claim_C5_counterexample :
    ((handleCVParam_ [("ACC:1", ⟨"ACC:1", "t", true, .NONE⟩)] "Column" "DataType"
        "ACC:1" "t" "" ⟨0, [], []⟩).1.countP isObsoleteWarnB) = 2 := by
  decide

/-- Claim C5, amended: for a term present in the ontology and marked
obsolete, the handler emits the `ObsoleteTerm` warning exactly twice (once
before and once after the name comparison) and then continues with the
remaining checks — in particular a mismatching trimmed name still produces
its `NameMismatch` warning. -/
theorem claim_C5_theorem (ont : CVOnt) (ppTag pTag acc name value : String)
    (st : ParseState) (t : CVTermOnt)
    (hl : lookupA ont acc = some t) (ho : t.obsolete = true) :
    ((handleCVParam_ ont ppTag pTag acc name value st).1.countP isObsoleteWarnB = 2) ∧
    (trimS name ≠ trimS t.name →
      CVWarn.nameMismatch t.id (trimS name) (trimS t.name) ∈
        (handleCVParam_ ont ppTag pTag acc name value st).1) := by
  have hv : (cvValidate ont pTag acc name value).1 =
      [CVWarn.obsoleteTerm acc pTag] ++
        (if trimS name ≠ trimS t.name then
          [CVWarn.nameMismatch t.id (trimS name) (trimS t.name)] else []) ++
        [CVWarn.obsoleteTerm acc pTag] ++ (cvValueCheck t acc pTag value).1 := by
    simp [cvValidate, hl, ho]
  constructor
  · simp only [handleCVParam_]
    split
    · simp only [hv, List.countP_append, cvValueCheck_countP_obsolete]
      split <;> simp [isObsoleteWarnB]
    · simp only [List.countP_append, hv, cvValueCheck_countP_obsolete,
        routeCV_countP_obsolete]
      split <;> simp [isObsoleteWarnB]
  · intro hn
    simp only [handleCVParam_]
    split
    · simp [hv, hn]
    · simp [hv, hn]

/-- Claim C5, witness: the amended theorem applied at a concrete input. -/
theorem claim_C5_witness :
    ((handleCVParam_ [("ACC:1", ⟨"ACC:1", "t", true, .NONE⟩)] "g" "x" "ACC:1" "u" ""
        ⟨0, [], []⟩).1.countP isObsoleteWarnB = 2) ∧
    (trimS "u" ≠ trimS "t" →
      CVWarn.nameMismatch "ACC:1" (trimS "u") (trimS "t") ∈
        (handleCVParam_ [("ACC:1", ⟨"ACC:1", "t", true, .NONE⟩)] "g" "x" "ACC:1" "u" ""
          ⟨0, [], []⟩).1) :=
  claim_C5_theorem [("ACC:1", ⟨"ACC:1", "t", true, .NONE⟩)] "g" "x" "ACC:1" "u" ""
    ⟨0, [], []⟩ ⟨"ACC:1", "t", true, .NONE⟩ rfl rfl

/-- Claim C10: in `handleUserParam_` the declared type `xsd:decimal` is
parsed with the integer conversion (so fractional text fails), while only
`xsd:double` and `xsd:float` produce a floating-point value. -/
theorem claim_C10_theorem :
    (∀ v, mkDataValue "xsd:decimal" v =
      match toIntOpt v with
      | some i => .ok (.dInt i)
      | none => .error .conversionError) ∧
    mkDataValue "xsd:decimal" "1.5" = .error .conversionError ∧
    (∃ q, mkDataValue "xsd:double" "1.5" = .ok (.dDouble q)) ∧
    (∃ q, mkDataValue "xsd:float" "1.5" = .ok (.dDouble q)) ∧
    (∀ t v q, mkDataValue t v = .ok (.dDouble q) →
      t = "xsd:double" ∨ t = "xsd:float") := by
  refine ⟨?_, by decide, ?_, ?_, ?_⟩
  · intro v
    simp [mkDataValue]
  · match h : toDoubleOpt "1.5" with
    | some q => exact ⟨q, by simp [mkDataValue, h]⟩
    | none => exact absurd h (by decide)
  · match h : toDoubleOpt "1.5" with
    | some q => exact ⟨q, by simp [mkDataValue, h]⟩
    | none => exact absurd h (by decide)
  · intro t v q h
    by_cases h1 : t = "xsd:double" ∨ t = "xsd:float"
    · exact h1
    · exfalso
      rw [mkDataValue, if_neg h1] at h
      by_cases h2 : t = "xsd:byte" ∨ t = "xsd:decimal" ∨ t = "xsd:int" ∨
          t = "xsd:integer" ∨ t = "xsd:long" ∨ t = "xsd:negativeInteger" ∨
          t = "xsd:nonNegativeInteger" ∨ t = "xsd:nonPositiveInteger" ∨
          t = "xsd:positiveInteger" ∨ t = "xsd:short" ∨
          t = "xsd:unsignedByte" ∨ t = "xsd:unsignedInt" ∨
          t = "xsd:unsignedLong" ∨ t = "xsd:unsignedShort"
      · rw [if_pos h2] at h
        cases hti : toIntOpt v <;> simp [hti] at h
      · rw [if_neg h2] at h
        simp at h

/-- Claim C10, witness: the only-floating-types direction applied to the
concrete `xsd:double` result obtained from the theorem itself. -/
theorem claim_C10_witness :
    "xsd:double" = "xsd:double" ∨ "xsd:double" = "xsd:float" :=
  Exists.elim claim_C10_theorem.2.2.1 fun q h =>
    claim_C10_theorem.2.2.2.2 "xsd:double" "1.5" q h

/-! ## Generic list lemmas -/

theorem lookupA_append {α β : Type} [DecidableEq α] (l1 l2 : List (α × β)) (k : α) :
    lookupA (l1 ++ l2) k = (lookupA l1 k).orElse (fun _ => lookupA l2 k) := by
  induction l1 with
  | nil => simp [lookupA]
  | cons p t ih =>
      by_cases h : k = p.1
      · simp [lookupA, h]
      · simp [lookupA, h, ih]

theorem lookupA_eq_none {α β : Type} [DecidableEq α] {l : List (α × β)} {k : α}
    (h : ∀ p ∈ l, p.1 ≠ k) : lookupA l k = none := by
  induction l with
  | nil => rfl
  | cons p t ih =>
      have hp : p.1 ≠ k := h p (by simp)
      simp only [lookupA]
      rw [if_neg (fun he => hp he.symm)]
      exact ih (fun q hq => h q (by simp [hq]))

theorem lookupA_isSome_iff {α β : Type} [DecidableEq α] (l : List (α × β)) (k : α) :
    (lookupA l k).isSome = true ↔ k ∈ l.map Prod.fst := by
  induction l with
  | nil => simp [lookupA]
  | cons p t ih =>
      by_cases h : k = p.1
      · simp [lookupA, h]
      · simp [lookupA, h, ih]

theorem foldlInv {α β : Type} {P : β → Prop} {f : β → α → β}
    (hf : ∀ b a, P b → P (f b a)) : ∀ (l : List α) (b : β), P b → P (l.foldl f b)
  | [], _, h => h
  | a :: t, b, h => foldlInv hf t (f b a) (hf b a h)

theorem countP_zero_of_none {p : XEvent → Bool} {l : List XEvent}
    (h : ∀ e ∈ l, p e = false) : l.countP p = 0 := by
  rw [List.countP_eq_zero]
  intro a ha
  simp [h a ha]

/-! ## Counterexample facts for the serializer claims -/

/-- Claim C1, counterexample: in the document serialized from `msqC1` not
every reference attribute resolves to an earlier id, and in particular an
`EvidenceRef` `feature_ref` points at a Feature id that is only emitted
later (the peptide-consensus list is written before the feature list). -/
theorem claim_C1_counterexample :
    resolvesEarlierB (trace msqC1) = false ∧
    evidenceFeatureForward (trace msqC1) = true := by
  constructor
  · decide
  · decide

/-- Claim C4, counterexample: with two IDMapper data-processing steps (and a
first consensus map owning a protein identification), `writeTo` emits the
identification-file / search-database block twice, and the reference reused
by the peptide-consensus list is the one allocated by the second step
(`sdb_4`), not the first (`sdb_0`). -/
theorem claim_C4_counterexample :
    (trace msqC4).countP isIdentFileB = 2 ∧
    (trace msqC4).filterMap pepSdbRef = ["sdb_4"] ∧
    (swPass (hasProtIdsB msqC4) (dbVer msqC4) msqC4.dataProcessingList 0).searchdbRef =
      "sdb_4" := by
  refine ⟨by decide, by decide, by decide⟩

/-- Claim C6, counterexample: in MS2-tag mode with an identification-file
reference present and two consensus maps, the peptide-consensus pass runs
for both maps (the guard is `k < 2`, not `k < 1`), emitting two
`PeptideConsensusList` elements — on an input whose peptide pass performs
no feature read at all (both maps are featureless), so the execution is
defined throughout. -/
theorem claim_C6_counterexample :
    pepInBoundsB msqC6 = true ∧ (trace msqC6).countP isPepListOpenB = 2 := by
  constructor
  · decide
  · decide

/-- Claim C7, counterexample: two consensus features of `msqC7` each carry a
ratio with numerator `"ab"` and denominator `"c"`, yet the emitted ratio
table has no row for that pair: deduplication keys on the concatenation
`"abc"`, which collides with the earlier pair `("a","bc")`, so the single
emitted row carries the other pair. -/
theorem claim_C7_counterexample :
    (trace msqC7).countP (isRatioRowPairB "a_ab" "a_c") = 0 ∧
    (trace msqC7).countP isRatioRowB = 1 ∧
    (trace msqC7).filter isRatioRowB = [XEvent.ratioRow "r_0" "a_a" "a_bc"] := by
  refine ⟨by decide, by decide, by decide⟩

/-- Claim C8, counterexample: assays `a_1` and `a_3` of `msqC8` share the
raw-file path `"P"`, yet their `rawFilesGroup_ref` attributes differ (the
third assay's reference follows the last seen path, `"S"`), and two
RawFilesGroup elements are emitted. -/
theorem claim_C8_counterexample :
    "P" ∈ (msqC8.assays.getD 0 default).raw_files ∧
    "P" ∈ (msqC8.assays.getD 2 default).raw_files ∧
    assayRefList (trace msqC8) =
      [("a_1", "rfg_0"), ("a_2", "rfg_3"), ("a_3", "rfg_3")] ∧
    (trace msqC8).countP isRawGroupB = 2 := by
  refine ⟨by decide, by decide, by decide, by decide⟩

/-! ## Section kind lemmas -/

theorem headerEvents_kinds : ∀ e ∈ headerEvents, headerKindB e = true := by decide

theorem analysisSummary_kinds (qt : QUANT_TYPES) :
    ∀ e ∈ analysisSummaryEvents qt, headerKindB e = true := by
  cases qt <;> decide

theorem labelEvents_kinds (qt : QUANT_TYPES) (a : Assay) :
    ∀ e ∈ labelEvents qt a, assayKindB e = true := by
  intro e he
  cases qt <;> simp only [labelEvents] at he
  · obtain ⟨m, _, rfl⟩ := List.mem_map.1 he
    rfl
  · obtain ⟨m, _, rfl⟩ := List.mem_map.1 he
    rfl
  · simp at he
    subst he
    rfl
  · simp at he
    subst he
    rfl

theorem writeCVParams_kinds (ts : List CVTermX) :
    ∀ e ∈ writeCVParamsEvents ts, swKindB e = true := by
  intro e he
  obtain ⟨t, _, rfl⟩ := List.mem_map.1 he
  rfl

theorem swPass_kinds (h : Bool) (dbv : String) (steps : List DataProcessing) (n : Nat) :
    (∀ e ∈ (swPass h dbv steps n).idfileEvents, idfileKindB e = true) ∧
    (∀ e ∈ (swPass h dbv steps n).swEvents, swKindB e = true) ∧
    (∀ e ∈ (swPass h dbv steps n).dpEvents, dpKindB e = true) := by
  unfold swPass
  refine foldlInv (P := fun acc : SwOut =>
    (∀ e ∈ acc.idfileEvents, idfileKindB e = true) ∧
    (∀ e ∈ acc.swEvents, swKindB e = true) ∧
    (∀ e ∈ acc.dpEvents, dpKindB e = true)) ?_ steps _ ⟨by simp, by simp, by simp⟩
  intro b a hb
  obtain ⟨h1, h2, h3⟩ := hb
  have hpa : ∀ e ∈ (List.range a.processingActions.length).flatMap (fun i =>
      [XEvent.processingMethod (i + 1),
       XEvent.userParam (namesOfProcessingAction.getD (a.processingActions.getD i 0) "")
         (some a.software.name)]), dpKindB e = true := by
    intro e he
    obtain ⟨i, _, hi⟩ := List.mem_flatMap.1 he
    simp only [List.mem_cons, List.mem_singleton] at hi
    rcases hi with rfl | rfl | hi
    · rfl
    · rfl
    · simp at hi
  by_cases hc : (a.software.name = "IDMapper" ∧ h = true)
  · simp only [swStep, if_pos hc]
    refine ⟨List.forall_mem_append.mpr ⟨h1, by simp [idfileKindB]⟩, ?_, ?_⟩
    · refine List.forall_mem_append.mpr ⟨h2, ?_⟩
      refine List.forall_mem_append.mpr
        ⟨List.forall_mem_append.mpr
          ⟨List.forall_mem_append.mpr ⟨by simp [swKindB], writeCVParams_kinds _⟩, ?_⟩, ?_⟩
      · split <;> simp [swKindB]
      · split <;> simp [swKindB]
    · refine List.forall_mem_append.mpr
        ⟨List.forall_mem_append.mpr ⟨h3, by simp [dpKindB]⟩, hpa⟩
  · simp only [swStep, if_neg hc]
    refine ⟨h1, ?_, ?_⟩
    · refine List.forall_mem_append.mpr ⟨h2, ?_⟩
      refine List.forall_mem_append.mpr
        ⟨List.forall_mem_append.mpr
          ⟨List.forall_mem_append.mpr ⟨by simp [swKindB], writeCVParams_kinds _⟩, ?_⟩, ?_⟩
      · split <;> simp [swKindB]
      · split <;> simp [swKindB]
    · refine List.forall_mem_append.mpr
        ⟨List.forall_mem_append.mpr ⟨h3, by simp [dpKindB]⟩, hpa⟩

theorem rawFold_kinds (paths : List String) (ia : RawAcc)
    (h : ∀ e ∈ ia.rgs, inputKindB e = true) :
    ∀ e ∈ (paths.foldl rawFileStep ia).rgs, inputKindB e = true := by
  refine foldlInv (P := fun x : RawAcc => ∀ e ∈ x.rgs, inputKindB e = true) ?_ paths ia h
  intro b p hb
  unfold rawFileStep
  split
  · exact List.forall_mem_append.mpr ⟨hb, by simp [inputKindB]⟩
  · exact hb

theorem assayPass_kinds (qt : QUANT_TYPES) (assays : List Assay) (n : Nat) :
    (∀ e ∈ (assayPass qt assays n).inputEvents, inputKindB e = true) ∧
    (∀ e ∈ (assayPass qt assays n).assayEvents, assayKindB e = true) ∧
    (∀ e ∈ (assayPass qt assays n).studyEvents, studyKindB e = true) := by
  unfold assayPass
  refine foldlInv (P := fun acc : AssayOut =>
    (∀ e ∈ acc.inputEvents, inputKindB e = true) ∧
    (∀ e ∈ acc.assayEvents, assayKindB e = true) ∧
    (∀ e ∈ acc.studyEvents, studyKindB e = true)) ?_ assays _ ⟨by simp, by simp, by simp⟩
  intro b a hb
  obtain ⟨h1, h2, h3⟩ := hb
  refine ⟨?_, ?_, ?_⟩
  · refine List.forall_mem_append.mpr ⟨h1, ?_⟩
    split
    · simp
    · refine List.forall_mem_append.mpr ⟨by simp [inputKindB], ?_⟩
      exact rawFold_kinds _ _ (by simp)
  · refine List.forall_mem_append.mpr
      ⟨List.forall_mem_append.mpr ⟨h2, by simp [assayKindB]⟩, labelEvents_kinds qt a⟩
  · exact List.forall_mem_append.mpr ⟨h3, by simp [studyKindB]⟩

theorem ratioSection_kinds (reg : RegOut) :
    ∀ e ∈ ratioSectionEvents reg, ratioKindB e = true := by
  intro e he
  unfold ratioSectionEvents at he
  obtain ⟨p, _, hp⟩ := List.mem_flatMap.1 he
  rcases List.mem_append.1 hp with hp | hp
  · rcases List.mem_append.1 hp with hp | hp
    · simp only [List.mem_singleton] at hp
      subst hp
      rfl
    · obtain ⟨d, _, rfl⟩ := List.mem_map.1 hp
      rfl
  · simp only [List.mem_cons] at hp
    rcases hp with rfl | rfl | rfl | hp
    · rfl
    · rfl
    · rfl
    · simp at hp

theorem featHandleFold_kinds (hs : List FeatureHandle) (st : FeatAcc × List Nat)
    (h : ∀ e ∈ st.1.events, featKindB e = true) :
    ∀ e ∈ (hs.foldl featHandleStep st).1.events, featKindB e = true := by
  refine foldlInv (P := fun x : FeatAcc × List Nat =>
    ∀ e ∈ x.1.events, featKindB e = true) ?_ hs st h
  intro b fh hb
  unfold featHandleStep
  refine List.forall_mem_append.mpr ⟨hb, ?_⟩
  simp [featKindB]

theorem featPass_kinds (msq : MSQuantifications) (glob : String) (n : Nat) :
    ∀ e ∈ (featPass msq glob n).events, featKindB e = true := by
  unfold featPass
  have hFold : ∀ e ∈ (msq.consensusMaps.foldl (featMapStep msq.quantType)
      { fid := [], fin := [], fwi := [], f2i := [], cid := [],
        events := [.featureListOpen "featurelist1" ("rfg_" ++ glob)], n := n }).events,
      featKindB e = true := by
    refine foldlInv (P := fun a : FeatAcc => ∀ e ∈ a.events, featKindB e = true) ?_
      msq.consensusMaps _ (by simp [featKindB])
    intro b m hb
    unfold featMapStep
    refine foldlInv (P := fun x : FeatAcc × List (List Nat) =>
      ∀ e ∈ x.1.events, featKindB e = true) ?_ m.features (b, []) hb
    intro x cf hx
    unfold featConsStep
    cases msq.quantType
    · exact featHandleFold_kinds _ _ hx
    · exact List.forall_mem_append.mpr ⟨hx, by simp [featKindB]⟩
    · exact hx
    · exact hx
  cases hq : msq.quantType
  all_goals simp only [hq]
  · refine List.forall_mem_append.mpr ⟨List.forall_mem_append.mpr ⟨?_, ?_⟩, ?_⟩
    · rw [← hq]
      exact hFold
    · simp [featKindB]
    · intro e he
      obtain ⟨p, _, rfl⟩ := List.mem_map.1 he
      rfl
  · refine List.forall_mem_append.mpr ⟨List.forall_mem_append.mpr ⟨?_, ?_⟩, ?_⟩
    · rw [← hq]
      exact hFold
    · simp [featKindB]
    · intro e he
      obtain ⟨p, _, rfl⟩ := List.mem_map.1 he
      rfl
  · rw [← hq]
    exact hFold
  · rw [← hq]
    exact hFold

theorem foldl_none {α β : Type} (f : Option β → α → Option β)
    (hf : ∀ x, f none x = none) : ∀ l : List α, l.foldl f none = none
  | [] => rfl
  | x :: t => by
      rw [List.foldl_cons, hf]
      exact foldl_none f hf t

theorem pepInner_kinds (sdb idf : String) (assRefs : List String)
    (feats : List ConsensusFeature) (fid : List Nat) :
    ∀ (l : List Nat) (o : Option (List XEvent × Nat)),
      (∀ x, o = some x → ∀ e ∈ x.1, pepKindB e = true) →
      ∀ x, (l.foldl (fun (acc : Option (List XEvent × Nat)) i =>
          acc.bind fun a =>
            (feats[i]?).map fun cf =>
              if cf.peptideIdentifications ≠ [] then
                (a.1 ++
                  [XEvent.pepConsensus ("c_" ++ toString a.2) cf.charge (some sdb),
                   XEvent.pepSequence
                     ((cf.peptideIdentifications.headD default).firstHitSequence),
                   XEvent.evidenceRef ("f_" ++ toString (fid.getD i 0)) assRefs (some idf)],
                 a.2 + 1)
              else a) o) = some x →
      ∀ e ∈ x.1, pepKindB e = true := by
  intro l o ho
  refine foldlInv (P := fun o : Option (List XEvent × Nat) =>
    ∀ x, o = some x → ∀ e ∈ x.1, pepKindB e = true) ?_ l o ho
  intro b i hb x hx
  rcases Option.bind_eq_some.1 hx with ⟨a, hba, hmap⟩
  rcases Option.map_eq_some'.1 hmap with ⟨cf, _, rfl⟩
  intro e he
  split at he
  · rcases List.mem_append.1 he with h1 | h1
    · exact hb a hba e h1
    · simp only [List.mem_cons] at h1
      rcases h1 with rfl | rfl | rfl | h1
      · rfl
      · rfl
      · rfl
      · exact absurd h1 (List.not_mem_nil e)
  · exact hb a hba e he

theorem pepInner_count (sdb idf : String) (assRefs : List String)
    (feats : List ConsensusFeature) (fid : List Nat) :
    ∀ (l : List Nat) (o : Option (List XEvent × Nat)),
      (∀ x, o = some x → x.1.countP isPepListOpenB = 0) →
      ∀ x, (l.foldl (fun (acc : Option (List XEvent × Nat)) i =>
          acc.bind fun a =>
            (feats[i]?).map fun cf =>
              if cf.peptideIdentifications ≠ [] then
                (a.1 ++
                  [XEvent.pepConsensus ("c_" ++ toString a.2) cf.charge (some sdb),
                   XEvent.pepSequence
                     ((cf.peptideIdentifications.headD default).firstHitSequence),
                   XEvent.evidenceRef ("f_" ++ toString (fid.getD i 0)) assRefs (some idf)],
                 a.2 + 1)
              else a) o) = some x →
      x.1.countP isPepListOpenB = 0 := by
  intro l o ho
  refine foldlInv (P := fun o : Option (List XEvent × Nat) =>
    ∀ x, o = some x → x.1.countP isPepListOpenB = 0) ?_ l o ho
  intro b i hb x hx
  rcases Option.bind_eq_some.1 hx with ⟨a, hba, hmap⟩
  rcases Option.map_eq_some'.1 hmap with ⟨cf, _, rfl⟩
  split
  · simp [List.countP_cons, isPepListOpenB, hb a hba]
  · exact hb a hba

theorem pepK_kinds (msq : MSQuantifications) (sdb idf : String)
    (numden : List (String × Nat)) (cid : List (List (List Nat))) (fid : List Nat)
    (k n : Nat) :
    ∀ r, pepK msq sdb idf numden cid fid k n = some r →
      ∀ e ∈ r.1, pepKindB e = true := by
  cases hq : msq.quantType
  all_goals simp only [pepK, hq]
  · rintro r hr
    injection hr with hr
    subst hr
    intro e he
    rcases List.mem_append.1 he with he | he
    · rcases List.mem_append.1 he with he | he
      · rcases List.mem_append.1 he with he | he
        · simp only [List.mem_singleton] at he
          subst he
          rfl
        · obtain ⟨i, _, hi⟩ := List.mem_flatMap.1 he
          rcases List.mem_append.1 hi with hi | hi
          · simp only [List.mem_singleton] at hi
            subst hi
            rfl
          · obtain ⟨j, _, rfl⟩ := List.mem_map.1 hi
            rfl
      · simp only [List.mem_cons] at he
        rcases he with rfl | rfl | he
        · rfl
        · rfl
        · simp at he
    · obtain ⟨i, _, rfl⟩ := List.mem_map.1 he
      rfl
  · intro r hr
    by_cases hc : (sdb ≠ "" ∧ k < 2)
    · rw [if_pos hc] at hr
      rcases Option.map_eq_some'.1 hr with ⟨a, ha, rfl⟩
      intro e he
      rcases List.mem_append.1 he with h1 | h1
      · simp only [List.mem_singleton] at h1
        subst h1
        rfl
      · exact pepInner_kinds sdb idf _ _ fid (List.range fid.length) _
          (by rintro x hx e2 he2; injection hx with hx; subst hx; simp at he2) a ha e h1
    · rw [if_neg hc] at hr
      injection hr with hr
      subst hr
      intro e he
      simp at he
  · intro r hr
    injection hr with hr
    subst hr
    intro e he
    simp at he
  · intro r hr
    injection hr with hr
    subst hr
    intro e he
    simp at he

theorem pepPass_some_kinds (msq : MSQuantifications) (sdb idf : String)
    (numden : List (String × Nat)) (cid : List (List (List Nat))) (fid : List Nat)
    (n : Nat) :
    ∀ r, pepPass msq sdb idf numden cid fid n = some r →
      ∀ e ∈ r.1, pepKindB e = true := by
  unfold pepPass
  refine foldlInv (P := fun o : Option (List XEvent × Nat) =>
    ∀ r, o = some r → ∀ e ∈ r.1, pepKindB e = true) ?_ _ _ ?_
  · intro b k hb r hr
    rcases Option.bind_eq_some.1 hr with ⟨a, hba, hmap⟩
    rcases Option.map_eq_some'.1 hmap with ⟨q, hqq, rfl⟩
    intro e he
    rcases List.mem_append.1 he with h1 | h1
    · exact hb a hba e h1
    · exact pepK_kinds msq sdb idf numden cid fid k a.2 q hqq e h1
  · rintro r hr e he
    injection hr with hr
    subst hr
    simp at he

theorem pepPass_kinds (msq : MSQuantifications) (sdb idf : String)
    (numden : List (String × Nat)) (cid : List (List (List Nat))) (fid : List Nat)
    (n : Nat) :
    ∀ e ∈ ((pepPass msq sdb idf numden cid fid n).getD ([], n)).1, pepKindB e = true := by
  cases hp : pepPass msq sdb idf numden cid fid n with
  | none =>
      intro e he
      simp at he
  | some r =>
      simp only [Option.getD_some]
      exact pepPass_some_kinds msq sdb idf numden cid fid n r hp

/-! ## Counting helpers -/

theorem countP_zero_from {p K : XEvent → Bool} {l : List XEvent}
    (hK : ∀ e ∈ l, K e = true) (hd : ∀ e, p e = true → K e = false) :
    l.countP p = 0 := by
  apply countP_zero_of_none
  intro e he
  cases hp : p e
  · rfl
  · exact absurd (hK e he) (by simp [hd e hp])

/-! ## Claim C4: the IDMapper identification-file block -/

theorem swPass_idfile_count_aux (h : Bool) (dbv : String) :
    ∀ (steps : List DataProcessing) (acc : SwOut),
    ((steps.foldl (swStep h dbv) acc).idfileEvents.countP isIdentFileB) =
      acc.idfileEvents.countP isIdentFileB +
        (if h then steps.countP (fun d => decide (d.software.name = "IDMapper")) else 0) := by
  intro steps
  induction steps with
  | nil =>
      intro acc
      cases h <;> simp
  | cons d t ih =>
      intro acc
      rw [List.foldl_cons, ih]
      have hstep : (swStep h dbv acc d).idfileEvents.countP isIdentFileB =
          acc.idfileEvents.countP isIdentFileB +
            (if d.software.name = "IDMapper" ∧ h = true then 1 else 0) := by
        by_cases hc : (d.software.name = "IDMapper" ∧ h = true)
        · simp [swStep, if_pos hc, List.countP_append, isIdentFileB, List.countP_cons]
        · simp [swStep, if_neg hc]
      rw [hstep]
      cases h
      · simp
      · by_cases hn : d.software.name = "IDMapper"
        · simp [List.countP_cons, hn]
          omega
        · simp [List.countP_cons, hn]

theorem swPass_idfile_count (h : Bool) (dbv : String) (steps : List DataProcessing)
    (n : Nat) :
    (swPass h dbv steps n).idfileEvents.countP isIdentFileB =
      (if h then steps.countP (fun d => decide (d.software.name = "IDMapper")) else 0) := by
  unfold swPass
  rw [swPass_idfile_count_aux]
  simp

/-- Claim C4, amended: every data-processing step whose software name is
`IDMapper` (given that the first consensus map has a protein identification)
emits its own identification-file / search-database block — the block
appears once per matching step, not at most once per document, and the
reference strings reused by later passes are those of the last matching
step (demonstrated concretely by the C4 counterexample). -/
theorem claim_C4_theorem (msq : MSQuantifications) :
    (trace msq).countP isIdentFileB =
      (if hasProtIdsB msq then
        msq.dataProcessingList.countP (fun d => decide (d.software.name = "IDMapper"))
      else 0) := by
  simp only [trace, List.countP_append]
  rw [countP_zero_from headerEvents_kinds
      (by intro e he; cases e <;> simp_all [isIdentFileB, headerKindB]),
    countP_zero_from (analysisSummary_kinds msq.quantType)
      (by intro e he; cases e <;> simp_all [isIdentFileB, headerKindB]),
    countP_zero_from (assayPass_kinds _ _ _).1
      (by intro e he; cases e <;> simp_all [isIdentFileB, inputKindB]),
    countP_zero_from (assayPass_kinds _ _ _).2.1
      (by intro e he; cases e <;> simp_all [isIdentFileB, assayKindB]),
    countP_zero_from (assayPass_kinds _ _ _).2.2
      (by intro e he; cases e <;> simp_all [isIdentFileB, studyKindB]),
    countP_zero_from (swPass_kinds _ _ _ _).2.1
      (by intro e he; cases e <;> simp_all [isIdentFileB, swKindB]),
    countP_zero_from (swPass_kinds _ _ _ _).2.2
      (by intro e he; cases e <;> simp_all [isIdentFileB, dpKindB]),
    countP_zero_from (featPass_kinds _ _ _)
      (by intro e he; cases e <;> simp_all [isIdentFileB, featKindB]),
    countP_zero_from (pepPass_kinds _ _ _ _ _ _ _)
      (by intro e he; cases e <;> simp_all [isIdentFileB, pepKindB]),
    swPass_idfile_count]
  have hxid : List.countP isIdentFileB [XEvent.xid "assaylist1"] = 0 := by decide
  have hra : ∀ (c : Prop) (inst : Decidable c) (reg : RegOut),
      List.countP isIdentFileB (if c then ratioSectionEvents reg else []) = 0 := by
    intro c inst reg
    split
    · exact countP_zero_from (ratioSection_kinds reg)
        (by intro e he; cases e <;> simp_all [isIdentFileB, ratioKindB])
    · rfl
  rw [hxid, hra]
  simp

/-! ## Claim C6: the MS2 peptide-consensus guard -/

theorem featHandleFold_cid (hs : List FeatureHandle) (st : FeatAcc × List Nat) :
    (hs.foldl featHandleStep st).1.cid = st.1.cid := by
  refine foldlInv (P := fun x : FeatAcc × List Nat => x.1.cid = st.1.cid) ?_ hs st rfl
  intro b fh hb
  simpa [featHandleStep] using hb

theorem featConsFold_cid (qt : QUANT_TYPES) (fs : List ConsensusFeature)
    (st : FeatAcc × List (List Nat)) :
    (fs.foldl (featConsStep qt) st).1.cid = st.1.cid := by
  refine foldlInv (P := fun x : FeatAcc × List (List Nat) => x.1.cid = st.1.cid) ?_ fs st rfl
  intro b cf hb
  cases qt
  · simpa [featConsStep, featHandleFold_cid] using hb
  · simpa [featConsStep] using hb
  · simpa [featConsStep] using hb
  · simpa [featConsStep] using hb

theorem featMapFold_cid_length (qt : QUANT_TYPES) :
    ∀ (maps : List ConsensusMap) (a : FeatAcc),
    (maps.foldl (featMapStep qt) a).cid.length = a.cid.length + maps.length := by
  intro maps
  induction maps with
  | nil => simp
  | cons m t ih =>
      intro a
      rw [List.foldl_cons, ih]
      simp [featMapStep, featConsFold_cid]
      omega

theorem featPass_cid_length (msq : MSQuantifications) (glob : String) (n : Nat) :
    (featPass msq glob n).cid.length = msq.consensusMaps.length := by
  unfold featPass
  cases hq : msq.quantType
  all_goals simp [hq, featMapFold_cid_length]

theorem pepK_count (msq : MSQuantifications) (hq : msq.quantType = .MS2LABEL)
    (sdb idf : String) (numden : List (String × Nat)) (cid : List (List (List Nat)))
    (fid : List Nat) (k n : Nat) :
    ∀ r, pepK msq sdb idf numden cid fid k n = some r →
      r.1.countP isPepListOpenB = (if sdb ≠ "" ∧ k < 2 then 1 else 0) := by
  simp only [pepK, hq]
  intro r hr
  by_cases hc : (sdb ≠ "" ∧ k < 2)
  · rw [if_pos hc] at hr
    rcases Option.map_eq_some'.1 hr with ⟨a, ha, rfl⟩
    rw [if_pos hc]
    have h0 : a.1.countP isPepListOpenB = 0 :=
      pepInner_count sdb idf _ _ fid (List.range fid.length) _
        (by rintro x hx; injection hx with hx; subst hx; rfl) a ha
    simp [List.countP_append, List.countP_cons, h0, isPepListOpenB]
  · rw [if_neg hc] at hr
    injection hr with hr
    subst hr
    rw [if_neg hc]
    rfl

theorem pepPass_count (msq : MSQuantifications) (hq : msq.quantType = .MS2LABEL)
    (sdb idf : String) (numden : List (String × Nat)) (cid : List (List (List Nat)))
    (fid : List Nat) (n : Nat) :
    ∀ r, pepPass msq sdb idf numden cid fid n = some r →
      r.1.countP isPepListOpenB =
        (List.range cid.length).countP (fun k => decide (sdb ≠ "" ∧ k < 2)) := by
  unfold pepPass
  have aux : ∀ (ks : List Nat) (st : List XEvent × Nat) (r : List XEvent × Nat),
      (ks.foldl (fun (acc : Option (List XEvent × Nat)) k =>
          acc.bind fun a =>
            (pepK msq sdb idf numden cid fid k a.2).map fun q => (a.1 ++ q.1, q.2))
        (some st)) = some r →
      r.1.countP isPepListOpenB =
        st.1.countP isPepListOpenB + ks.countP (fun k => decide (sdb ≠ "" ∧ k < 2)) := by
    intro ks
    induction ks with
    | nil =>
        intro st r hr
        injection hr with hr
        subst hr
        simp
    | cons k t ih =>
        intro st r hr
        simp only [List.foldl_cons, Option.some_bind] at hr
        rcases hk : pepK msq sdb idf numden cid fid k st.2 with _ | q
        · rw [hk, Option.map_none'] at hr
          have hn := foldl_none (fun (acc : Option (List XEvent × Nat)) k =>
              acc.bind fun a =>
                (pepK msq sdb idf numden cid fid k a.2).map fun q => (a.1 ++ q.1, q.2))
            (fun x => rfl) t
          rw [hn] at hr
          exact Option.noConfusion hr
        · rw [hk, Option.map_some'] at hr
          rw [ih (st.1 ++ q.1, q.2) r hr]
          simp only [List.countP_append, List.countP_cons,
            pepK_count msq hq sdb idf numden cid fid k st.2 q hk]
          by_cases hc : (sdb ≠ "" ∧ k < 2)
          · simp [hc]
            omega
          · simp [hc]
  intro r hr
  have h := aux (List.range cid.length) ([], n) r hr
  simpa using h

theorem range_countP_min (c : Bool) : ∀ n : Nat,
    (List.range n).countP (fun k => c && decide (k < 2)) =
      (if c then min n 2 else 0) := by
  intro n
  induction n with
  | zero => cases c <;> simp
  | succ m ih =>
      rw [List.range_succ, List.countP_append, ih]
      cases c
      · simp
      · simp only [List.countP_cons, List.countP_nil, Bool.true_and]
        by_cases hm : m < 2
        · simp [hm]
          omega
        · simp [hm]
          omega

/-- Claim C6, amended: in MS2-tag mode the peptide-consensus pass emits
nothing when no identification-file reference exists; when one exists it
runs for the first two consensus maps (the guard is `k < 2`) and is skipped
only from the third consensus map on — with exactly two maps the second is
still processed.  The statement is made for inputs on which the pass's
unchecked per-map feature reads stay in bounds (`pepInBoundsB`); elsewhere
the program's behaviour is undefined. -/
theorem claim_C6_theorem (msq : MSQuantifications)
    (hq : msq.quantType = .MS2LABEL) (hok : pepInBoundsB msq = true) :
    (trace msq).countP isPepListOpenB =
      (if (swPass (hasProtIdsB msq) (dbVer msq) msq.dataProcessingList 0).searchdbRef = ""
       then 0 else min msq.consensusMaps.length 2) := by
  simp only [pepInBoundsB] at hok
  rcases Option.isSome_iff_exists.1 hok with ⟨r, hr⟩
  simp only [trace, List.countP_append]
  rw [countP_zero_from headerEvents_kinds
      (by intro e he; cases e <;> simp_all [isPepListOpenB, headerKindB]),
    countP_zero_from (analysisSummary_kinds msq.quantType)
      (by intro e he; cases e <;> simp_all [isPepListOpenB, headerKindB]),
    countP_zero_from (assayPass_kinds _ _ _).1
      (by intro e he; cases e <;> simp_all [isPepListOpenB, inputKindB]),
    countP_zero_from (assayPass_kinds _ _ _).2.1
      (by intro e he; cases e <;> simp_all [isPepListOpenB, assayKindB]),
    countP_zero_from (assayPass_kinds _ _ _).2.2
      (by intro e he; cases e <;> simp_all [isPepListOpenB, studyKindB]),
    countP_zero_from (swPass_kinds _ _ _ _).1
      (by intro e he; cases e <;> simp_all [isPepListOpenB, idfileKindB]),
    countP_zero_from (swPass_kinds _ _ _ _).2.1
      (by intro e he; cases e <;> simp_all [isPepListOpenB, swKindB]),
    countP_zero_from (swPass_kinds _ _ _ _).2.2
      (by intro e he; cases e <;> simp_all [isPepListOpenB, dpKindB]),
    countP_zero_from (featPass_kinds _ _ _)
      (by intro e he; cases e <;> simp_all [isPepListOpenB, featKindB]),
    hr, Option.getD_some, pepPass_count msq hq _ _ _ _ _ _ r hr]
  have hxid : List.countP isPepListOpenB [XEvent.xid "assaylist1"] = 0 := by decide
  have hra : ∀ (c : Prop) (inst : Decidable c) (reg : RegOut),
      List.countP isPepListOpenB (if c then ratioSectionEvents reg else []) = 0 := by
    intro c inst reg
    split
    · exact countP_zero_from (ratioSection_kinds reg)
        (by intro e he; cases e <;> simp_all [isPepListOpenB, ratioKindB])
    · rfl
  rw [hxid, hra, featPass_cid_length]
  have hfun : (fun k => decide
      ((swPass (hasProtIdsB msq) (dbVer msq) msq.dataProcessingList 0).searchdbRef ≠ "" ∧
        k < 2)) =
      (fun k => decide
        ((swPass (hasProtIdsB msq) (dbVer msq) msq.dataProcessingList 0).searchdbRef ≠ "") &&
        decide (k < 2)) := by
    funext k
    exact Bool.decide_and _ _
  rw [hfun, range_countP_min]
  by_cases hs : (swPass (hasProtIdsB msq) (dbVer msq) msq.dataProcessingList 0).searchdbRef = ""
  · simp [hs]
  · simp [hs]

/-- Claim C6, witness: the amended theorem applied to the two-map MS2 input
`msqC6`, whose identification reference is nonempty and whose peptide pass
stays in bounds. -/
theorem claim_C6_witness :
    (trace msqC6).countP isPepListOpenB =
      (if (swPass (hasProtIdsB msqC6) (dbVer msqC6) msqC6.dataProcessingList 0).searchdbRef = ""
       then 0 else min msqC6.consensusMaps.length 2) :=
  claim_C6_theorem msqC6 rfl (by decide)

/-! ## Claim C8: raw-file-group deduplication for two single-file assays -/

theorem filterMap_none_of_kind {β : Type} {f : XEvent → Option β} {K : XEvent → Bool}
    {l : List XEvent} (hK : ∀ e ∈ l, K e = true) (hd : ∀ e, K e = true → f e = none) :
    l.filterMap f = [] := by
  induction l with
  | nil => rfl
  | cons e t ih =>
      rw [List.filterMap_cons, hd e (hK e (by simp))]
      exact ih (fun x hx => hK x (by simp [hx]))

theorem labelEvents_extract_nil (qt : QUANT_TYPES) (a : Assay)
    {β : Type} (f : XEvent → Option β)
    (hf : ∀ d acc nm v, f (XEvent.modification d acc nm v) = none) :
    (labelEvents qt a).filterMap f = [] := by
  apply filterMap_none_of_kind (K := fun x =>
    match x with
    | XEvent.modification _ _ _ _ => true
    | _ => false)
  · intro x hx
    cases qt <;> simp only [labelEvents] at hx
    · obtain ⟨m, _, rfl⟩ := List.mem_map.1 hx
      rfl
    · obtain ⟨m, _, rfl⟩ := List.mem_map.1 hx
      rfl
    · simp at hx
      subst hx
      rfl
    · simp at hx
      subst hx
      rfl
  · intro x hx
    cases x <;> first
      | exact hf _ _ _ _
      | simp_all

theorem assayPass_two_input (qt : QUANT_TYPES) (u1 u2 : Nat)
    (m1 m2 : List (String × ℚ)) (p : String) (N : Nat) :
    (assayPass qt [⟨u1, m1, [p]⟩, ⟨u2, m2, [p]⟩] N).inputEvents =
      [XEvent.rawGroup ("rfg_" ++ toString N),
       XEvent.rawFile ("r_" ++ toString (N + 2)) p] := by
  simp [assayPass, assayStep, rawFileStep, lookupA]

theorem assayPass_two_assay (qt : QUANT_TYPES) (u1 u2 : Nat)
    (m1 m2 : List (String × ℚ)) (p : String) (N : Nat) :
    (assayPass qt [⟨u1, m1, [p]⟩, ⟨u2, m2, [p]⟩] N).assayEvents =
      [XEvent.assay ("a_" ++ toString u1) ("rfg_" ++ toString N)] ++
        labelEvents qt ⟨u1, m1, [p]⟩ ++
        ([XEvent.assay ("a_" ++ toString u2) ("rfg_" ++ toString N)] ++
          labelEvents qt ⟨u2, m2, [p]⟩) := by
  simp [assayPass, assayStep, rawFileStep, lookupA]

/-- Claim C8, amended: when the two assays' raw-file lists both consist of
exactly the shared path, the deduplication works as claimed — one
RawFilesGroup is emitted and both Assay elements reference the same group
id.  (With additional paths in play the reference instead follows the group
recorded for the last seen path and extra group elements appear, as the C8
counterexample shows.) -/
theorem claim_C8_theorem (qt : QUANT_TYPES) (steps : List DataProcessing)
    (maps : List ConsensusMap) (u1 u2 : Nat) (m1 m2 : List (String × ℚ)) (p : String) :
    (trace ⟨qt, steps, maps, [⟨u1, m1, [p]⟩, ⟨u2, m2, [p]⟩]⟩).countP isRawGroupB = 1 ∧
    (∃ rr, assayRefList (trace ⟨qt, steps, maps, [⟨u1, m1, [p]⟩, ⟨u2, m2, [p]⟩]⟩) =
      [("a_" ++ toString u1, rr), ("a_" ++ toString u2, rr)]) := by
  constructor
  · simp only [trace, List.countP_append]
    rw [countP_zero_from headerEvents_kinds
        (by intro e he; cases e <;> simp_all [isRawGroupB, headerKindB]),
      countP_zero_from (analysisSummary_kinds _)
        (by intro e he; cases e <;> simp_all [isRawGroupB, headerKindB]),
      countP_zero_from (assayPass_kinds _ _ _).2.1
        (by intro e he; cases e <;> simp_all [isRawGroupB, assayKindB]),
      countP_zero_from (assayPass_kinds _ _ _).2.2
        (by intro e he; cases e <;> simp_all [isRawGroupB, studyKindB]),
      countP_zero_from (swPass_kinds _ _ _ _).1
        (by intro e he; cases e <;> simp_all [isRawGroupB, idfileKindB]),
      countP_zero_from (swPass_kinds _ _ _ _).2.1
        (by intro e he; cases e <;> simp_all [isRawGroupB, swKindB]),
      countP_zero_from (swPass_kinds _ _ _ _).2.2
        (by intro e he; cases e <;> simp_all [isRawGroupB, dpKindB]),
      countP_zero_from (featPass_kinds _ _ _)
        (by intro e he; cases e <;> simp_all [isRawGroupB, featKindB]),
      countP_zero_from (pepPass_kinds _ _ _ _ _ _ _)
        (by intro e he; cases e <;> simp_all [isRawGroupB, pepKindB])]
    have hxid : List.countP isRawGroupB [XEvent.xid "assaylist1"] = 0 := by decide
    have hra : ∀ (c : Prop) (inst : Decidable c) (reg : RegOut),
        List.countP isRawGroupB (if c then ratioSectionEvents reg else []) = 0 := by
      intro c inst reg
      split
      · exact countP_zero_from (ratioSection_kinds reg)
          (by intro e he; cases e <;> simp_all [isRawGroupB, ratioKindB])
      · rfl
    rw [hxid, hra]
    have hinput := assayPass_two_input qt u1 u2 m1 m2 p
    simp only [MSQuantifications.mk.injEq] at hinput ⊢
    rw [hinput]
    simp [isRawGroupB, List.countP_cons]
  · simp only [trace, assayRefList, List.filterMap_append]
    have hex : ∀ (K : XEvent → Bool), (∀ i r, K (XEvent.assay i r) = false) →
        ∀ e : XEvent, K e = true →
        (fun x =>
          match x with
          | XEvent.assay i r => some (i, r)
          | _ => none) e = (none : Option (String × String)) := by
      intro K hKa e hK
      cases e <;> first
        | (exfalso
           rw [hKa _ _] at hK
           exact absurd hK (by simp))
        | rfl
    rw [filterMap_none_of_kind headerEvents_kinds
        (hex headerKindB (by intro i r; rfl)),
      filterMap_none_of_kind (analysisSummary_kinds _)
        (hex headerKindB (by intro i r; rfl)),
      filterMap_none_of_kind (assayPass_kinds _ _ _).1
        (hex inputKindB (by intro i r; rfl)),
      filterMap_none_of_kind (assayPass_kinds _ _ _).2.2
        (hex studyKindB (by intro i r; rfl)),
      filterMap_none_of_kind (swPass_kinds _ _ _ _).1
        (hex idfileKindB (by intro i r; rfl)),
      filterMap_none_of_kind (swPass_kinds _ _ _ _).2.1
        (hex swKindB (by intro i r; rfl)),
      filterMap_none_of_kind (swPass_kinds _ _ _ _).2.2
        (hex dpKindB (by intro i r; rfl)),
      filterMap_none_of_kind (featPass_kinds _ _ _)
        (hex featKindB (by intro i r; rfl)),
      filterMap_none_of_kind (pepPass_kinds _ _ _ _ _ _ _)
        (hex pepKindB (by intro i r; rfl))]
    have hra : ∀ (c : Prop) (inst : Decidable c) (reg : RegOut),
        List.filterMap (fun x =>
          match x with
          | XEvent.assay i r => some (i, r)
          | _ => (none : Option (String × String)))
          (if c then ratioSectionEvents reg else []) = [] := by
      intro c inst reg
      split
      · exact filterMap_none_of_kind (ratioSection_kinds reg)
          (hex ratioKindB (by intro i r; rfl))
      · rfl
    rw [hra]
    have hassay := assayPass_two_assay qt u1 u2 m1 m2 p
    rw [hassay]
    rw [List.filterMap_append, List.filterMap_append, List.filterMap_append]
    rw [labelEvents_extract_nil qt ⟨u1, m1, [p]⟩ _ (by intro d acc nm v; rfl),
      labelEvents_extract_nil qt ⟨u2, m2, [p]⟩ _ (by intro d acc nm v; rfl)]
    simp only [List.filterMap_cons, List.filterMap_nil, List.nil_append, List.append_nil]
    exact ⟨_, rfl⟩

/-! ## Claim C9: the MS1 label-modification mapping -/

theorem infix_ext_left {α : Type} {x m : List α} (l : List α) (h : x <:+: m) :
    x <:+: l ++ m := by
  obtain ⟨s, t, rfl⟩ := h
  exact ⟨l ++ s, t, by simp⟩

theorem infix_ext_right {α : Type} {x m : List α} (r : List α) (h : x <:+: m) :
    x <:+: m ++ r := by
  obtain ⟨s, t, rfl⟩ := h
  exact ⟨s, t ++ r, by simp⟩

theorem assayFold_mono (qt : QUANT_TYPES) (x : List XEvent) :
    ∀ (t : List Assay) (acc : AssayOut), x <:+: acc.assayEvents →
    x <:+: (t.foldl (assayStep qt) acc).assayEvents := by
  intro t acc h
  refine foldlInv (P := fun b : AssayOut => x <:+: b.assayEvents) ?_ t acc h
  intro b a hb
  exact infix_ext_right _ (infix_ext_right _ hb)

theorem assayFold_label_infix (qt : QUANT_TYPES) :
    ∀ (assays : List Assay) (acc : AssayOut) (a : Assay), a ∈ assays →
    labelEvents qt a <:+: (assays.foldl (assayStep qt) acc).assayEvents := by
  intro assays
  induction assays with
  | nil =>
      intro acc a ha
      simp at ha
  | cons b t ih =>
      intro acc a ha
      rw [List.foldl_cons]
      rcases List.mem_cons.1 ha with rfl | ha
      · refine assayFold_mono qt _ t _ ?_
        exact ⟨acc.assayEvents ++ [XEvent.assay ("a_" ++ toString a.uid)
          ("rfg_" ++ (a.raw_files.foldl rawFileStep
            { rfgr := toString acc.n, group_exists := true, rgs := [], files := acc.files,
              glob := acc.glob, n := acc.n + 2 }).rfgr)], [], by simp [assayStep]⟩
      · exact ih _ a ha

/-- Claim C9: in MS1-label mode the serializer maps every assay
modification by rounding the mass delta to the nearest integer
(`floor(x + 0.5)`) through the fixed table: 6.02 yields MOD:00544, 8.0
yields MOD:00582, and 3.3 (rounds to 3, unmapped) yields the
unlabeled-sample term MS:1002038; and each assay's emitted label block is a
contiguous part of the serialized document. -/
theorem claim_C9_theorem :
    (∀ a : Assay, labelEvents .MS1LABEL a =
      a.mods.map (fun m => XEvent.modification m.2
        (some (ms1AccTable (roundNearest m.2)))
        (ms1NameTable (roundNearest m.2)) (some m.1))) ∧
    ms1AccTable (roundNearest (6.02 : ℚ)) = "MOD:00544" ∧
    ms1AccTable (roundNearest (8 : ℚ)) = "MOD:00582" ∧
    ms1AccTable (roundNearest (3.3 : ℚ)) = "MS:1002038" ∧
    (∀ (msq : MSQuantifications) (a : Assay), msq.quantType = .MS1LABEL →
      a ∈ msq.assays → labelEvents .MS1LABEL a <:+: trace msq) := by
  have h602 : roundNearest (6.02 : ℚ) = 6 := by
    unfold roundNearest
    rw [Int.floor_eq_iff]
    norm_num
  have h8 : roundNearest (8 : ℚ) = 8 := by
    unfold roundNearest
    rw [Int.floor_eq_iff]
    norm_num
  have h33 : roundNearest (3.3 : ℚ) = 3 := by
    unfold roundNearest
    rw [Int.floor_eq_iff]
    norm_num
  refine ⟨?_, by rw [h602]; rfl, by rw [h8]; rfl, by rw [h33]; rfl, ?_⟩
  · intro a
    simp only [labelEvents]
    congr 1
    funext m
    by_cases h6 : (⌊m.2 + (2⁻¹ : ℚ)⌋ : ℤ) = 6
    · simp [ms1AccTable, ms1NameTable, roundNearest, h6]
    · by_cases hh8 : (⌊m.2 + (2⁻¹ : ℚ)⌋ : ℤ) = 8
      · simp [ms1AccTable, ms1NameTable, roundNearest, h6, hh8]
      · by_cases h10 : (⌊m.2 + (2⁻¹ : ℚ)⌋ : ℤ) = 10
        · simp [ms1AccTable, ms1NameTable, roundNearest, h6, hh8, h10]
        · simp [ms1AccTable, ms1NameTable, roundNearest, h6, hh8, h10]
  · intro msq a hq ha
    have h1 : labelEvents .MS1LABEL a <:+:
        (assayPass msq.quantType msq.assays
          (if msq.quantType = .MS1LABEL then
            registerRatios (allRatios msq)
              (swPass (hasProtIdsB msq) (dbVer msq) msq.dataProcessingList 0).n
          else
            { numden := [], rrobj := [],
              n := (swPass (hasProtIdsB msq) (dbVer msq) msq.dataProcessingList 0).n }).n).assayEvents := by
      rw [← hq]
      exact assayFold_label_infix msq.quantType msq.assays _ a ha
    simp only [trace]
    refine infix_ext_right _ (infix_ext_right _ (infix_ext_right _ (infix_ext_right _
      (infix_ext_left _ h1))))

/-- Claim C9, witness: the trace-inclusion part applied to a concrete
MS1-label input with one assay and one modification. -/
theorem claim_C9_witness :
    labelEvents .MS1LABEL ⟨7, [("Lys8", 8)], []⟩ <:+: trace msqC9w :=
  claim_C9_theorem.2.2.2.2 msqC9w ⟨7, [("Lys8", 8)], []⟩ rfl (List.mem_singleton.mpr rfl)

/-! ## Claim C7: ratio deduplication by concatenated key -/

theorem str_append_inj {a b c : String} (h : c ++ a = c ++ b) : a = b := by
  have h2 := congrArg String.data h
  simp only [String.data_append] at h2
  exact String.ext (List.append_cancel_left h2)

theorem lookupA_snoc_ne {β : Type} (l : List (Nat × β)) (k n : Nat) (v : β) (h : k ≠ n) :
    lookupA (l ++ [(n, v)]) k = lookupA l k := by
  rw [lookupA_append]
  cases hO : lookupA l k
  · simp [Option.orElse, lookupA, h]
  · simp [Option.orElse]

theorem lookupA_snoc_self {β : Type} (l : List (Nat × β)) (n : Nat) (v : β)
    (h : ∀ pr ∈ l, pr.1 < n) : lookupA (l ++ [(n, v)]) n = some v := by
  rw [lookupA_append,
    lookupA_eq_none (fun pr hpr => Nat.ne_of_lt (h pr hpr))]
  simp [Option.orElse, lookupA]

theorem reg_dedup : ∀ (rs : List Ratio) (acc : RegOut),
    (∀ pr ∈ acc.numden, pr.2 < acc.n) → (∀ pr ∈ acc.rrobj, pr.1 < acc.n) →
    (rs.foldl regStep acc).numden.map
        (fun pr => (pr.1, lookupA (rs.foldl regStep acc).rrobj pr.2)) =
      acc.numden.map (fun pr => (pr.1, lookupA acc.rrobj pr.2)) ++
        (dedupGo (acc.numden.map Prod.fst) rs).map
          (fun r => (r.numerator_ref ++ r.denominator_ref, some r)) := by
  intro rs
  induction rs with
  | nil =>
      intro acc hb1 hb2
      simp [dedupGo]
  | cons r t ih =>
      intro acc hb1 hb2
      rw [List.foldl_cons]
      by_cases hk : (lookupA acc.numden (r.numerator_ref ++ r.denominator_ref)).isSome = true
      · have hregstep : regStep acc r =
            { numden := acc.numden, rrobj := acc.rrobj ++ [(acc.n, r)], n := acc.n + 1 } := by
          simp [regStep, hk]
        have hmem : (r.numerator_ref ++ r.denominator_ref) ∈ acc.numden.map Prod.fst :=
          (lookupA_isSome_iff _ _).1 hk
        have hded : dedupGo (acc.numden.map Prod.fst) (r :: t) =
            dedupGo (acc.numden.map Prod.fst) t := by
          simp [dedupGo, hmem]
        rw [hregstep, hded,
          ih { numden := acc.numden, rrobj := acc.rrobj ++ [(acc.n, r)], n := acc.n + 1 }
            (fun pr hpr => Nat.lt_succ_of_lt (hb1 pr hpr))
            (fun pr hpr => by
              rcases List.mem_append.1 hpr with hpr | hpr
              · exact Nat.lt_succ_of_lt (hb2 pr hpr)
              · simp only [List.mem_singleton] at hpr
                subst hpr
                exact Nat.lt_succ_self _)]
        congr 1
        apply List.map_congr_left
        intro pr hpr
        rw [lookupA_snoc_ne _ _ _ _ (Nat.ne_of_lt (hb1 pr hpr))]
      · have hregstep : regStep acc r =
            { numden := acc.numden ++ [(r.numerator_ref ++ r.denominator_ref, acc.n)],
              rrobj := acc.rrobj ++ [(acc.n, r)], n := acc.n + 1 } := by
          simp [regStep, hk]
        have hnotmem : (r.numerator_ref ++ r.denominator_ref) ∉ acc.numden.map Prod.fst := by
          intro hc
          exact hk ((lookupA_isSome_iff _ _).2 hc)
        have hded : dedupGo (acc.numden.map Prod.fst) (r :: t) =
            r :: dedupGo (acc.numden.map Prod.fst ++ [r.numerator_ref ++ r.denominator_ref]) t := by
          simp [dedupGo, hnotmem]
        rw [hregstep,
          ih { numden := acc.numden ++ [(r.numerator_ref ++ r.denominator_ref, acc.n)],
               rrobj := acc.rrobj ++ [(acc.n, r)], n := acc.n + 1 }
            (fun pr hpr => by
              rcases List.mem_append.1 hpr with hpr | hpr
              · exact Nat.lt_succ_of_lt (hb1 pr hpr)
              · simp only [List.mem_singleton] at hpr
                subst hpr
                exact Nat.lt_succ_self _)
            (fun pr hpr => by
              rcases List.mem_append.1 hpr with hpr | hpr
              · exact Nat.lt_succ_of_lt (hb2 pr hpr)
              · simp only [List.mem_singleton] at hpr
                subst hpr
                exact Nat.lt_succ_self _),
          hded]
        rw [List.map_append, List.map_append]
        simp only [List.map_cons, List.map_nil]
        rw [lookupA_snoc_self _ _ _ hb2]
        have hold : acc.numden.map (fun pr =>
            (pr.1, lookupA (acc.rrobj ++ [(acc.n, r)]) pr.2)) =
            acc.numden.map (fun pr => (pr.1, lookupA acc.rrobj pr.2)) := by
          apply List.map_congr_left
          intro pr hpr
          rw [lookupA_snoc_ne _ _ _ _ (Nat.ne_of_lt (hb1 pr hpr))]
        rw [hold]
        simp

theorem ratioSection_countP (reg : RegOut) (nr dr : String) :
    (ratioSectionEvents reg).countP (isRatioRowPairB nr dr) =
      reg.numden.countP (fun pr =>
        decide ("a_" ++ ((lookupA reg.rrobj pr.2).getD default).numerator_ref = nr) &&
        decide ("a_" ++ ((lookupA reg.rrobj pr.2).getD default).denominator_ref = dr)) := by
  unfold ratioSectionEvents
  induction reg.numden with
  | nil => rfl
  | cons p t ih =>
      rw [List.flatMap_cons, List.countP_append, ih, List.countP_cons]
      have hu : (((lookupA reg.rrobj p.2).getD default).description.map
          (fun d => XEvent.userParam d none)).countP (isRatioRowPairB nr dr) = 0 := by
        apply countP_zero_of_none
        intro e he
        obtain ⟨d, _, rfl⟩ := List.mem_map.1 he
        rfl
      dsimp only
      rw [List.countP_append, List.countP_append, hu]
      have hcv : List.countP (isRatioRowPairB nr dr)
          [XEvent.cvParam "PSI-MS" "MS:1001848" none,
           XEvent.cvParam "PSI-MS" "MS:1001847" none,
           XEvent.cvParam "PSI-MS" "MS:1001847" none] = 0 := by
        apply countP_zero_of_none
        intro e he
        simp only [List.mem_cons] at he
        rcases he with rfl | rfl | rfl | he
        · rfl
        · rfl
        · rfl
        · simp at he
      rw [hcv]
      simp only [List.countP_cons, List.countP_nil, isRatioRowPairB]
      omega

theorem dedupGo_sub : ∀ (l : List Ratio) (seen : List String) (r : Ratio),
    r ∈ dedupGo seen l → r ∈ l := by
  intro l
  induction l with
  | nil =>
      intro seen r h
      simp [dedupGo] at h
  | cons x t ih =>
      intro seen r h
      by_cases hx : (x.numerator_ref ++ x.denominator_ref) ∈ seen
      · rw [show dedupGo seen (x :: t) = dedupGo seen t from by simp [dedupGo, hx]] at h
        exact List.mem_cons_of_mem _ (ih seen r h)
      · rw [show dedupGo seen (x :: t) =
            x :: dedupGo (seen ++ [x.numerator_ref ++ x.denominator_ref]) t from by
          simp [dedupGo, hx]] at h
        rcases List.mem_cons.1 h with rfl | h
        · exact List.mem_cons_self _ _
        · exact List.mem_cons_of_mem _ (ih _ r h)

theorem dedupGo_count_key : ∀ (l : List Ratio) (seen : List String) (k : String),
    (dedupGo seen l).countP
        (fun r => decide (r.numerator_ref ++ r.denominator_ref = k)) =
      (if k ∈ seen then 0
       else if l.any (fun r => decide (r.numerator_ref ++ r.denominator_ref = k))
       then 1 else 0) := by
  intro l
  induction l with
  | nil =>
      intro seen k
      by_cases hs : k ∈ seen <;> simp [dedupGo, hs]
  | cons x t ih =>
      intro seen k
      by_cases hx : (x.numerator_ref ++ x.denominator_ref) ∈ seen
      · rw [show dedupGo seen (x :: t) = dedupGo seen t from by simp [dedupGo, hx], ih]
        by_cases hs : k ∈ seen
        · simp [hs]
        · have hne : ¬(x.numerator_ref ++ x.denominator_ref = k) := fun hc => hs (hc ▸ hx)
          simp [hs, List.any_cons, hne]
      · rw [show dedupGo seen (x :: t) =
            x :: dedupGo (seen ++ [x.numerator_ref ++ x.denominator_ref]) t from by
          simp [dedupGo, hx]]
        rw [List.countP_cons, ih]
        by_cases hxk : (x.numerator_ref ++ x.denominator_ref = k)
        · have hks : ¬(k ∈ seen) := fun hc => hx (hxk ▸ hc)
          have hmem : k ∈ seen ++ [x.numerator_ref ++ x.denominator_ref] := by
            simp [← hxk]
          simp [hmem, hks, List.any_cons, hxk]
        · have hmemiff : (k ∈ seen ++ [x.numerator_ref ++ x.denominator_ref]) ↔ k ∈ seen := by
            constructor
            · intro hc
              rcases List.mem_append.1 hc with hc | hc
              · exact hc
              · simp only [List.mem_singleton] at hc
                exact absurd hc.symm hxk
            · intro hc
              exact List.mem_append_left _ hc
          by_cases hks : k ∈ seen
          · simp [hks, hmemiff.2 hks, hxk, List.any_cons]
          · have hnm : ¬(k ∈ seen ++ [x.numerator_ref ++ x.denominator_ref]) :=
              fun hc => hks (hmemiff.1 hc)
            simp [hks, hnm, hxk, List.any_cons]

/-- Claim C7, amended: the ratio table is deduplicated by the concatenation
of the numerator and denominator reference strings: it contains exactly one
row for each distinct concatenated key, carrying the (numerator,
denominator) pair of the first ratio encountered with that key.  Two
consensus features each holding a ratio `(X, Y)` therefore yield exactly one
row for `(X, Y)` provided no other ratio's concatenation collides with
`X ++ Y` under a different pair — with such a collision the row for the key
carries the colliding first pair instead (see the C7 counterexample). -/
theorem claim_C7_theorem (msq : MSQuantifications) (hq : msq.quantType = .MS1LABEL)
    (X Y : String) :
    ((trace msq).countP (isRatioRowPairB ("a_" ++ X) ("a_" ++ Y)) =
      ((dedupFirstByKey (allRatios msq)).filter (fun r =>
        decide (r.numerator_ref = X) && decide (r.denominator_ref = Y))).length) ∧
    ((∃ r ∈ allRatios msq, r.numerator_ref = X ∧ r.denominator_ref = Y) →
      (∀ r ∈ allRatios msq, r.numerator_ref ++ r.denominator_ref = X ++ Y →
        r.numerator_ref = X ∧ r.denominator_ref = Y) →
      (trace msq).countP (isRatioRowPairB ("a_" ++ X) ("a_" ++ Y)) = 1) := by
  have hmain : (trace msq).countP (isRatioRowPairB ("a_" ++ X) ("a_" ++ Y)) =
      (dedupFirstByKey (allRatios msq)).countP (fun r =>
        decide (r.numerator_ref = X) && decide (r.denominator_ref = Y)) := by
    simp only [trace, List.countP_append]
    rw [countP_zero_from headerEvents_kinds
        (by intro e he; cases e <;> simp_all [isRatioRowPairB, headerKindB]),
      countP_zero_from (analysisSummary_kinds msq.quantType)
        (by intro e he; cases e <;> simp_all [isRatioRowPairB, headerKindB]),
      countP_zero_from (assayPass_kinds _ _ _).1
        (by intro e he; cases e <;> simp_all [isRatioRowPairB, inputKindB]),
      countP_zero_from (assayPass_kinds _ _ _).2.1
        (by intro e he; cases e <;> simp_all [isRatioRowPairB, assayKindB]),
      countP_zero_from (assayPass_kinds _ _ _).2.2
        (by intro e he; cases e <;> simp_all [isRatioRowPairB, studyKindB]),
      countP_zero_from (swPass_kinds _ _ _ _).1
        (by intro e he; cases e <;> simp_all [isRatioRowPairB, idfileKindB]),
      countP_zero_from (swPass_kinds _ _ _ _).2.1
        (by intro e he; cases e <;> simp_all [isRatioRowPairB, swKindB]),
      countP_zero_from (swPass_kinds _ _ _ _).2.2
        (by intro e he; cases e <;> simp_all [isRatioRowPairB, dpKindB]),
      countP_zero_from (featPass_kinds _ _ _)
        (by intro e he; cases e <;> simp_all [isRatioRowPairB, featKindB]),
      countP_zero_from (pepPass_kinds _ _ _ _ _ _ _)
        (by intro e he; cases e <;> simp_all [isRatioRowPairB, pepKindB])]
    have hxid : List.countP (isRatioRowPairB ("a_" ++ X) ("a_" ++ Y))
        [XEvent.xid "assaylist1"] = 0 := by
      simp [isRatioRowPairB, List.countP_cons]
    rw [hxid]
    simp only [hq, eq_self_iff_true, if_true, Nat.zero_add, Nat.add_zero]
    rw [ratioSection_countP]
    have hmap := reg_dedup (allRatios msq)
      { numden := [], rrobj := [],
        n := (swPass (hasProtIdsB msq) (dbVer msq) msq.dataProcessingList 0).n }
      (by simp) (by simp)
    simp only [List.map_nil, List.nil_append] at hmap
    have hQ : (registerRatios (allRatios msq)
          (swPass (hasProtIdsB msq) (dbVer msq) msq.dataProcessingList 0).n).numden.countP
        (fun pr =>
          decide ("a_" ++ ((lookupA (registerRatios (allRatios msq)
            (swPass (hasProtIdsB msq) (dbVer msq) msq.dataProcessingList 0).n).rrobj
              pr.2).getD default).numerator_ref = "a_" ++ X) &&
          decide ("a_" ++ ((lookupA (registerRatios (allRatios msq)
            (swPass (hasProtIdsB msq) (dbVer msq) msq.dataProcessingList 0).n).rrobj
              pr.2).getD default).denominator_ref = "a_" ++ Y)) =
        ((registerRatios (allRatios msq)
            (swPass (hasProtIdsB msq) (dbVer msq) msq.dataProcessingList 0).n).numden.map
          (fun pr => (pr.1, lookupA (registerRatios (allRatios msq)
            (swPass (hasProtIdsB msq) (dbVer msq) msq.dataProcessingList 0).n).rrobj
              pr.2))).countP
          (fun x : String × Option Ratio =>
            decide ("a_" ++ (x.2.getD default).numerator_ref = "a_" ++ X) &&
            decide ("a_" ++ (x.2.getD default).denominator_ref = "a_" ++ Y)) := by
      rw [List.countP_map]
      rfl
    rw [hQ]
    rw [show (registerRatios (allRatios msq)
        (swPass (hasProtIdsB msq) (dbVer msq) msq.dataProcessingList 0).n) =
        ((allRatios msq).foldl regStep
          { numden := [], rrobj := [],
            n := (swPass (hasProtIdsB msq) (dbVer msq) msq.dataProcessingList 0).n })
      from rfl]
    rw [hmap, List.countP_map]
    apply List.countP_congr
    intro r hr
    simp only [Function.comp, Option.getD_some, Bool.and_eq_true, decide_eq_true_eq]
    constructor
    · rintro ⟨h1, h2⟩
      exact ⟨str_append_inj h1, str_append_inj h2⟩
    · rintro ⟨h1, h2⟩
      exact ⟨by rw [h1], by rw [h2]⟩
  refine ⟨by rw [hmain, List.countP_eq_length_filter], ?_⟩
  intro hmem hall
  rw [hmain]
  have hck : (dedupFirstByKey (allRatios msq)).countP
      (fun r => decide (r.numerator_ref ++ r.denominator_ref = X ++ Y)) = 1 := by
    unfold dedupFirstByKey
    rw [dedupGo_count_key]
    obtain ⟨r, hrmem, hrn, hrd⟩ := hmem
    have hany : (allRatios msq).any
        (fun r => decide (r.numerator_ref ++ r.denominator_ref = X ++ Y)) = true := by
      rw [List.any_eq_true]
      exact ⟨r, hrmem, by simp [hrn, hrd]⟩
    simp [hany]
  rw [← hck]
  apply List.countP_congr
  intro r hr
  have hrl : r ∈ allRatios msq := dedupGo_sub _ _ _ hr
  simp only [Bool.and_eq_true, decide_eq_true_eq]
  constructor
  · rintro ⟨h1, h2⟩
    rw [h1, h2]
  · intro hkey
    exact hall r hrl hkey

/-- Claim C7, witness: the amended theorem applied to a collision-free
concrete input in which two consensus features carry the ratio pair
`("X","Y")`: exactly one row is emitted for that pair. -/
theorem claim_C7_witness :
    (trace msqC7w).countP (isRatioRowPairB ("a_" ++ "X") ("a_" ++ "Y")) = 1 :=
  (claim_C7_theorem msqC7w rfl "X" "Y").2 (by decide) (by decide)

/-- Splitting a reference-resolution scan over an append: the second part is
scanned with the defined-id set extended by the first part's definitions. -/
theorem refsResolveFrom_append (p : XEvent → Bool) :
    ∀ (l₁ : List XEvent) (ds : List String) (l₂ : List XEvent),
    refsResolveFrom p ds (l₁ ++ l₂) =
      (refsResolveFrom p ds l₁ && refsResolveFrom p (ds ++ l₁.flatMap defsOf) l₂)
  | [], ds, l₂ => by simp [refsResolveFrom]
  | e :: t, ds, l₂ => by
      simp only [List.cons_append, refsResolveFrom, List.flatMap_cons, List.append_eq]
      rw [refsResolveFrom_append p t (ds ++ defsOf e) l₂, List.append_assoc,
        Bool.and_assoc]

/-- A scan is vacuously successful on a segment containing no event selected
by `p`. -/
theorem refsResolveFrom_of_no_p (p : XEvent → Bool) :
    ∀ (l : List XEvent) (ds : List String), (∀ e ∈ l, p e = false) →
      refsResolveFrom p ds l = true
  | [], _, _ => rfl
  | e :: t, ds, h => by
      simp only [refsResolveFrom, Bool.and_eq_true]
      refine ⟨?_, refsResolveFrom_of_no_p p t (ds ++ defsOf e)
        (fun x hx => h x (List.mem_cons_of_mem _ hx))⟩
      rw [h e (List.mem_cons_self _ _)]
      rfl

/-- A scan succeeds on a segment when every reference of every selected
event lies in a fixed id set already contained in the initial defined set. -/
theorem refsResolveFrom_of_subset (p : XEvent → Bool) (d0 : List String) :
    ∀ (l : List XEvent), (∀ e ∈ l, p e = true → ∀ r ∈ refsOf e, r ∈ d0) →
      ∀ (ds : List String), (∀ x ∈ d0, x ∈ ds) → refsResolveFrom p ds l = true
  | [], _, _, _ => rfl
  | e :: t, h, ds, hsub => by
      simp only [refsResolveFrom, Bool.and_eq_true]
      constructor
      · cases hp : p e
        · rfl
        · simp only [Bool.not_true, Bool.false_or, List.all_eq_true]
          intro r hr
          exact decide_eq_true (hsub r (h e (List.mem_cons_self _ _) hp r hr))
      · exact refsResolveFrom_of_subset p d0 t
          (fun x hx => h x (List.mem_cons_of_mem _ hx)) (ds ++ defsOf e)
          (fun x hx => List.mem_append_left _ (hsub x hx))

/-- Every `DataProcessing` element emitted by the software pass references a
software id that the same pass defines inside its software list. -/
theorem swPass_dp_refs (h : Bool) (dbv : String) (steps : List DataProcessing) (n : Nat) :
    ∀ e ∈ (swPass h dbv steps n).dpEvents, isDataProcessingB e = true →
      ∀ r ∈ refsOf e, r ∈ (swPass h dbv steps n).swEvents.flatMap defsOf := by
  unfold swPass
  refine foldlInv (P := fun acc : SwOut =>
    ∀ e ∈ acc.dpEvents, isDataProcessingB e = true →
      ∀ r ∈ refsOf e, r ∈ acc.swEvents.flatMap defsOf) ?_ steps _ (by simp)
  intro b a hb
  have hpa : ∀ e ∈ (List.range a.processingActions.length).flatMap (fun i =>
      [XEvent.processingMethod (i + 1),
       XEvent.userParam (namesOfProcessingAction.getD (a.processingActions.getD i 0) "")
         (some a.software.name)]), isDataProcessingB e = false := by
    intro e he
    obtain ⟨i, _, hi⟩ := List.mem_flatMap.1 he
    simp only [List.mem_cons, List.mem_singleton] at hi
    rcases hi with rfl | rfl | hi
    · rfl
    · rfl
    · simp at hi
  by_cases hc : (a.software.name = "IDMapper" ∧ h = true)
  · simp only [swStep, if_pos hc]
    intro e he hp r hr
    rw [List.flatMap_append, List.mem_append]
    simp only [List.mem_append, List.mem_singleton] at he
    rcases he with (he | rfl) | he
    · exact Or.inl (hb e he hp r hr)
    · simp only [refsOf, List.mem_singleton] at hr
      subst hr
      refine Or.inr (List.mem_flatMap.2
        ⟨XEvent.software ("sw_" ++ toString (b.n + 2)) a.software.version, by simp, ?_⟩)
      simp [defsOf]
    · exact absurd hp (by simp [hpa e he])
  · simp only [swStep, if_neg hc]
    intro e he hp r hr
    rw [List.flatMap_append, List.mem_append]
    simp only [List.mem_append, List.mem_singleton] at he
    rcases he with (he | rfl) | he
    · exact Or.inl (hb e he hp r hr)
    · simp only [refsOf, List.mem_singleton] at hr
      subst hr
      refine Or.inr (List.mem_flatMap.2
        ⟨XEvent.software ("sw_" ++ toString b.n) a.software.version, by simp, ?_⟩)
      simp [defsOf]
    · exact absurd hp (by simp [hpa e he])

/-- Claim C1, amended: id allocation precedes first use within each list,
and in particular every `software_ref` of a `DataProcessing` element
resolves to an id emitted earlier in document order, for every input; but
the guarantee does not extend to all reference attributes: the peptide
consensus lists are streamed to the document before the feature lists they
point into, so the `feature_ref` of an `EvidenceRef` is a forward reference
(see the C1 counterexample for the full resolution-order refutation). -/
theorem claim_C1_theorem :
    (∀ msq : MSQuantifications,
      refsResolveFrom isDataProcessingB [] (trace msq) = true) ∧
    evidenceFeatureForward (trace msqC1) = true := by
  constructor
  · intro msq
    simp only [trace, refsResolveFrom_append, Bool.and_eq_true]
    and_intros
    · exact refsResolveFrom_of_no_p _ _ _ (fun e he => by
        have hk := headerEvents_kinds e he
        cases e <;> simp_all [isDataProcessingB, headerKindB])
    · exact refsResolveFrom_of_no_p _ _ _ (fun e he => by
        have hk := analysisSummary_kinds msq.quantType e he
        cases e <;> simp_all [isDataProcessingB, headerKindB])
    · exact refsResolveFrom_of_no_p _ _ _ (fun e he => by
        have hk := (assayPass_kinds _ _ _).1 e he
        cases e <;> simp_all [isDataProcessingB, inputKindB])
    · exact refsResolveFrom_of_no_p _ _ _ (fun e he => by
        have hk := (swPass_kinds _ _ _ _).1 e he
        cases e <;> simp_all [isDataProcessingB, idfileKindB])
    · exact refsResolveFrom_of_no_p _ _ _ (fun e he => by
        have hk := (swPass_kinds _ _ _ _).2.1 e he
        cases e <;> simp_all [isDataProcessingB, swKindB])
    · exact refsResolveFrom_of_subset _ _ _ (swPass_dp_refs _ _ _ _) _
        (fun x hx => by
          simp only [List.flatMap_append, List.mem_append, List.nil_append]
          tauto)
    · exact refsResolveFrom_of_no_p _ _ _ (fun e he => by
        simp only [List.mem_singleton] at he
        subst he
        rfl)
    · exact refsResolveFrom_of_no_p _ _ _ (fun e he => by
        have hk := (assayPass_kinds _ _ _).2.1 e he
        cases e <;> simp_all [isDataProcessingB, assayKindB])
    · exact refsResolveFrom_of_no_p _ _ _ (fun e he => by
        have hk := (assayPass_kinds _ _ _).2.2 e he
        cases e <;> simp_all [isDataProcessingB, studyKindB])
    · refine refsResolveFrom_of_no_p _ _ _ (fun e he => ?_)
      split at he
      · have hk := ratioSection_kinds _ e he
        cases e <;> simp_all [isDataProcessingB, ratioKindB]
      · simp at he
    · exact refsResolveFrom_of_no_p _ _ _ (fun e he => by
        have hk := pepPass_kinds _ _ _ _ _ _ _ e he
        cases e <;> simp_all [isDataProcessingB, pepKindB])
    · exact refsResolveFrom_of_no_p _ _ _ (fun e he => by
        have hk := featPass_kinds _ _ _ e he
        cases e <;> simp_all [isDataProcessingB, featKindB])
  · decide
